import Mathlib

/-!
Verification of the caching and pipeline layer of an e-book summarisation
application.  The definitions below are a shallow embedding of the
TypeScript sources: `CacheService` (key generation / parsing / deletion over
a localforage store), `BookProcessingService` (chapter grouping, per-group
summary and mind-map stages, cross-cutting stages, mind-map merging),
`AIService` (validation and error wrapping around the generation transport)
and the `SummaryPage.handleStartProcessing` orchestration.

Modelling conventions:
* The async key-value store is a finite association list; a run environment
  records whether the store's read / write / remove operations reject, and
  rejections are propagated exactly where the source lacks a try/catch.
* The generation transport (HTTP fetch and stream decoding) is an oracle
  mapping each stage's textual inputs to a final result or a thrown error;
  the time-throttled intermediate stream callbacks are abstracted away, but
  the unconditional final and cache-replay callback invocations are kept.
* JS strings are modelled as Lean strings (all characters of interest are in
  the Basic Multilingual Plane, where `charCodeAt` agrees with code points);
  JS regular expressions are modelled by explicit greedy-backtracking
  searches over `List Char`.
-/

namespace Ebook

/-- JS exceptions distinguished by the code: `DOMException('...', 'AbortError')`,
plain `Error`, and a rejection coming from the persistence layer. -/
inductive JsErr where
  | abort (msg : String)
  | err (msg : String)
  | store (msg : String)
deriving DecidableEq, Repr

/-- The `name` property of the modelled JS exception. -/
def JsErr.name : JsErr → String
  | .abort _ => "AbortError"
  | .err _ => "Error"
  | .store _ => "Error"

/-- The `message` property of the modelled JS exception. -/
def JsErr.message : JsErr → String
  | .abort m => m
  | .err m => m
  | .store m => m

/-- Fault model for the persistence layer: whether `getItem`, `setItem`,
`removeItem` reject. -/
structure Env where
  readFails : Bool
  writeFails : Bool
  removeFails : Bool
deriving DecidableEq, Repr

/-- Environment in which every store operation succeeds. -/
def noFault : Env := ⟨false, false, false⟩

/-- CacheKeyType from cacheService.ts. -/
inductive CacheKeyType where
  | summary
  | mindmap
  | connections
  | overall_summary
  | character_relationship
  | combined_mindmap
  | merged_mindmap
  | mindmap_arrows
  | selected_chapters
  | chapter_tags
  | custom_prompt
  | use_custom_only
deriving DecidableEq, Repr

/-- The literal string of each cache key type. -/
def typeStr : CacheKeyType → String
  | .summary => "summary"
  | .mindmap => "mindmap"
  | .connections => "connections"
  | .overall_summary => "overall_summary"
  | .character_relationship => "character_relationship"
  | .combined_mindmap => "combined_mindmap"
  | .merged_mindmap => "merged_mindmap"
  | .mindmap_arrows => "mindmap_arrows"
  | .selected_chapters => "selected_chapters"
  | .chapter_tags => "chapter_tags"
  | .custom_prompt => "custom_prompt"
  | .use_custom_only => "use_custom_only"

/-- Characters kept by the filename sanitizer `[^a-zA-Z0-9一-龥]`. -/
def isCleanChar (c : Char) : Bool :=
  ('a' ≤ c && c ≤ 'z') || ('A' ≤ c && c ≤ 'Z') || ('0' ≤ c && c ≤ '9') ||
    (0x4e00 ≤ c.toNat && c.toNat ≤ 0x9fa5)

/-- Index of the last occurrence of a character, if any. -/
def lastIdxOf (c : Char) (l : List Char) : Option Nat :=
  ((List.range l.length).filter (fun i => l.get? i = some c)).getLast?

/-- JS `filename.replace(/\.[^\/.]+$/, '')`: drop a final dot-extension that
is nonempty and contains no slash (after the last dot there is never another
dot, so the leftmost possible match starts at the last dot). -/
def stripExt (l : List Char) : List Char :=
  match lastIdxOf '.' l with
  | none => l
  | some i =>
    let after := l.drop (i + 1)
    if after ≠ [] ∧ '/' ∉ after then l.take i else l

/-- The sanitized book token: strip the extension, then replace every
character outside `[a-zA-Z0-9一-龥]` with an underscore. -/
def cleanFilename (filename : String) : String :=
  String.mk ((stripExt filename.data).map (fun c => if isCleanChar c then c else '_'))

namespace CacheService

/-- CacheService.generateKey: chapter-level keys are
`book_{clean}_chapter_{chapterId}_{type}` and book-level keys are
`book_{clean}_{type}`; a chapterId that is `undefined` or `""` (falsy)
selects the book-level form. -/
def generateKey (filename : String) (ty : CacheKeyType) (chapterId : Option String) : String :=
  let clean := cleanFilename filename
  match chapterId with
  | some cid =>
    if cid = "" then "book_" ++ clean ++ "_" ++ typeStr ty
    else "book_" ++ clean ++ "_chapter_" ++ cid ++ "_" ++ typeStr ty
  | none => "book_" ++ clean ++ "_" ++ typeStr ty

end CacheService

/-- `subAt pat l p`: the pattern occurs in `l` starting at index `p`. -/
def subAt (pat l : List Char) (p : Nat) : Prop :=
  (l.drop p).take pat.length = pat

instance (pat l : List Char) (p : Nat) : Decidable (subAt pat l p) := by
  unfold subAt; infer_instance

/-- Boolean substring check (JS `String.prototype.includes`). -/
def subCheck (pat l : List Char) : Bool :=
  (List.range l.length).any (fun p => decide (subAt pat l p))

/-- The chapter-key separator segment `_chapter_`. -/
def sepL : List Char := "_chapter_".data

/-- A position `p` in the middle segment of a candidate chapter key is a
valid split if the book-name part before it is nonempty, the separator
`_chapter_` occurs at `p`, and the chapter-id part after it is nonempty
(this is the per-position success condition of the backtracking regex
`^book_(.+)_chapter_(.+)_(summary|mindmap)$`). -/
def validSepPos (mid : List Char) (p : Nat) : Bool :=
  decide (1 ≤ p) && decide (subAt sepL mid p) && decide (p + 9 < mid.length)

/-- The greedy `(.+)` group takes the last valid separator position. -/
def lastSepPos (mid : List Char) : Option Nat :=
  ((List.range mid.length).filter (validSepPos mid)).getLast?

/-- Decoded form of a cache key. -/
structure ParsedKey where
  bookName : String
  type : CacheKeyType
  chapterId : Option String
deriving DecidableEq, Repr

/-- The book-level alternation of `parseKey`, ordered by increasing literal
length: under backtracking the greedy `(.+)` group is as long as possible,
i.e. the shortest alternative that matches the key's tail wins (two distinct
alternatives of equal length can never both match the same tail). -/
def bookAltsAsc : List CacheKeyType :=
  [.connections, .chapter_tags, .custom_prompt, .overall_summary, .merged_mindmap,
   .mindmap_arrows, .use_custom_only, .combined_mindmap, .selected_chapters,
   .character_relationship]

/-- Try the book-level alternatives in order; `'_' ++ alt` must be a proper
suffix of the remainder (so that the `(.+)` book-name group is nonempty). -/
def tryBookAlts (rest : List Char) : List CacheKeyType → Option ParsedKey
  | [] => none
  | ty :: tys =>
    let alt := '_' :: (typeStr ty).data
    if alt.length < rest.length ∧ rest.drop (rest.length - alt.length) = alt then
      some ⟨String.mk (rest.take (rest.length - alt.length)), ty, none⟩
    else tryBookAlts rest tys

/-- CacheService.parseKey: first the chapter pattern
`^book_(.+)_chapter_(.+)_(summary|mindmap)$` (greedy groups), then the
book-level pattern `^book_(.+)_(connections|...|use_custom_only)$`;
`none` for any other string. -/
def parseKey (key : String) : Option ParsedKey :=
  let l := key.data
  if l.take 5 = "book_".data then
    let rest := l.drop 5
    let suffix8 := rest.drop (rest.length - 8)
    let chTy : Option CacheKeyType :=
      if suffix8 = "_summary".data then some .summary
      else if suffix8 = "_mindmap".data then some .mindmap
      else none
    let chapterTry : Option ParsedKey :=
      match chTy with
      | some ty =>
        let mid := rest.take (rest.length - 8)
        match lastSepPos mid with
        | some p => some ⟨String.mk (mid.take p), ty, some (String.mk (mid.drop (p + 9)))⟩
        | none => none
      | none => none
    match chapterTry with
    | some r => some r
    | none => tryBookAlts rest bookAltsAsc
  else none

/-! ### The persistence layer -/

/-- Mind-map node (mind-elixir `NodeObj`): topic, id, tags, children. -/
inductive MindNode where
  | node (topic : String) (id : String) (tags : List String) (children : List MindNode)

/-- The `nodeData` property of a stored mind-map object: the property can be
absent, present but null/falsy, or an actual root node. -/
inductive NodeField where
  | missing
  | nullVal
  | root (n : MindNode)

/-- MindElixirData payload: root field, arrows and summaries (arrow and
summary payloads are kept opaque). -/
structure MEVal where
  nodeData : NodeField
  arrows : List String
  summaries : List String

/-- CacheValue: string, mind-map object, string list, string map or bool. -/
inductive CacheValue where
  | str (s : String)
  | mind (m : MEVal)
  | strList (l : List String)
  | strMap (l : List (String × String))
  | boolVal (b : Bool)

/-- Whether the `nodeData` property exists on the object (`'nodeData' in value`). -/
def NodeField.present : NodeField → Bool
  | .missing => false
  | .nullVal => true
  | .root _ => true

/-- Whether the `nodeData` property is truthy (`mindMap.nodeData` as a test). -/
def NodeField.truthy : NodeField → Bool
  | .missing => false
  | .nullVal => false
  | .root _ => true

/-- The localforage store, as an association list of key/value pairs. -/
abbrev Store := List (String × CacheValue)

/-- `store.getItem(key)` (successful case): first binding of the key. -/
def lookup : Store → String → Option CacheValue
  | [], _ => none
  | (k, v) :: rest, key => if k = key then some v else lookup rest key

/-- `store.removeItem(key)` (successful case). -/
def removeItem : Store → String → Store
  | [], _ => []
  | (k₀, v) :: rest, k => if k₀ = k then removeItem rest k else (k₀, v) :: removeItem rest k

/-- `store.setItem(key, v)` (successful case): overwrite the binding. -/
def setItem (st : Store) (k : String) (v : CacheValue) : Store :=
  removeItem st k ++ [(k, v)]

/-- `store.keys()`. -/
def keysOf (st : Store) : List String := st.map (·.1)

namespace CacheService

/-- `store.getItem` with the fault model: a rejecting read propagates. -/
def getItemE (env : Env) (st : Store) (k : String) : Except JsErr (Option CacheValue) :=
  if env.readFails then .error (.store "getItem failed") else .ok (lookup st k)

/-- `store.setItem` with the fault model: a rejecting write propagates. -/
def setItemE (env : Env) (st : Store) (k : String) (v : CacheValue) : Except JsErr Store :=
  if env.writeFails then .error (.store "setItem failed") else .ok (setItem st k v)

/-- CacheService.getString: no try/catch, so a store rejection propagates;
a stored non-string value reads as `null`. -/
def getString (env : Env) (st : Store) (filename : String) (ty : CacheKeyType)
    (chapterId : Option String) : Except JsErr (Option String) :=
  match getItemE env st (generateKey filename ty chapterId) with
  | .error e => .error e
  | .ok v =>
    .ok (match v with
         | some (.str s) => some s
         | _ => none)

/-- CacheService.getMindMap: the stored value must be an object with a
`nodeData` property (`'nodeData' in value`); no try/catch. -/
def getMindMap (env : Env) (st : Store) (filename : String) (ty : CacheKeyType)
    (chapterId : Option String) : Except JsErr (Option MEVal) :=
  match getItemE env st (generateKey filename ty chapterId) with
  | .error e => .error e
  | .ok v =>
    .ok (match v with
         | some (.mind m) => if m.nodeData.present then some m else none
         | _ => none)

/-- CacheService.setCache: no try/catch, so a store rejection propagates. -/
def setCache (env : Env) (st : Store) (filename : String) (ty : CacheKeyType)
    (v : CacheValue) (chapterId : Option String) : Except JsErr Store :=
  setItemE env st (generateKey filename ty chapterId) v

/-- CacheService.deleteCache: `removeItem` wrapped in try/catch, returning
`true` on success (whether or not the key existed) and `false` on rejection. -/
def deleteCache (env : Env) (st : Store) (filename : String) (ty : CacheKeyType)
    (chapterId : Option String) : Store × Bool :=
  if env.removeFails then (st, false)
  else (removeItem st (generateKey filename ty chapterId), true)

/-- CacheService.deleteCacheByKey: same try/catch shape on a raw key. -/
def deleteCacheByKey (env : Env) (st : Store) (k : String) : Store × Bool :=
  if env.removeFails then (st, false) else (removeItem st k, true)

/-- The chapter-key sweep of clearBookCache: remove each key, counting the
successes and ignoring failures. -/
def removeKeysCount (env : Env) : Store → List String → Store × Nat
  | st, [] => (st, 0)
  | st, k :: rest =>
    let step := if env.removeFails then (st, 0) else (removeItem st k, 1)
    let next := removeKeysCount env step.1 rest
    (next.1, step.2 + next.2)

/-- A Bool counted as 0/1 (the `if (await deleteCache...) deletedCount++`). -/
def cnt (b : Bool) : Nat := if b then 1 else 0

/-- The clearBookCache processing-mode argument. -/
inductive ClearMode where
  | summary
  | mindmap
  | combined_mindmap
deriving DecidableEq, Repr

/-- The chapter-sweep filter of clearBookCache:
`key.startsWith(bookPrefix) && key.includes('_chapter_') && key.endsWith(suffix)`. -/
def sweepMatch (bookPre : String) (suffix : String) (k : String) : Bool :=
  decide (k.data.take bookPre.data.length = bookPre.data) &&
    subCheck sepL k.data &&
    decide (k.data.drop (k.data.length - suffix.data.length) = suffix.data)

/-- CacheService.clearBookCache: delete the selected-chapters and
chapter-tags entries, then the mode's book-level entries, then (for summary
and mindmap modes) sweep all chapter-level keys of the book, counting every
successful removal. -/
def clearBookCache (env : Env) (st : Store) (fileName : String) (mode : ClearMode) :
    Store × Nat :=
  let bookPre := "book_" ++ cleanFilename fileName ++ "_"
  let d1 := deleteCache env st fileName .selected_chapters none
  let d2 := deleteCache env d1.1 fileName .chapter_tags none
  let base := cnt d1.2 + cnt d2.2
  match mode with
  | .summary =>
    let d3 := deleteCache env d2.1 fileName .connections none
    let d4 := deleteCache env d3.1 fileName .character_relationship none
    let d5 := deleteCache env d4.1 fileName .overall_summary none
    let chapterKeys := (keysOf d5.1).filter (sweepMatch bookPre "_summary")
    let sw := removeKeysCount env d5.1 chapterKeys
    (sw.1, base + cnt d3.2 + cnt d4.2 + cnt d5.2 + sw.2)
  | .mindmap =>
    let d3 := deleteCache env d2.1 fileName .mindmap_arrows none
    let d4 := deleteCache env d3.1 fileName .merged_mindmap none
    let chapterKeys := (keysOf d4.1).filter (sweepMatch bookPre "_mindmap")
    let sw := removeKeysCount env d4.1 chapterKeys
    (sw.1, base + cnt d3.2 + cnt d4.2 + sw.2)
  | .combined_mindmap =>
    let d3 := deleteCache env d2.1 fileName .combined_mindmap none
    (d3.1, base + cnt d3.2)

end CacheService

/-! ### Chapters, groups and the grouping algorithm -/

/-- ChapterData as consumed by the processing service: id, title, content. -/
structure ChapterData where
  id : String
  title : String
  content : String
deriving DecidableEq, Repr

/-- Chapter as produced by the processing service. -/
structure Chapter where
  id : String
  title : String
  content : String
  summary : Option String
  reasoning : Option String
  mindMap : Option MEVal

/-- TempChapterGroup from bookProcessingService.ts. -/
structure TempChapterGroup where
  tag : Option String
  chapters : List ChapterData
  groupId : String
deriving DecidableEq, Repr

/-- ChapterGroup as returned by the processing service. -/
structure ChapterGroup where
  groupId : String
  tag : Option String
  chapterIds : List String
  chapterTitles : List String
  summary : Option String
  reasoning : Option String
  mindMap : Option MEVal

/-- The chapter-tag assignment (`Map<string, string>`). -/
abbrev TagMap := List (String × String)

/-- `Map.prototype.get`. -/
def assocStr : TagMap → String → Option String
  | [], _ => none
  | (k, v) :: rest, key => if k = key then some v else assocStr rest key

/-- `chapterTags.get(chapter.id) || null`: an absent or empty tag is null. -/
def tagOf (tags : TagMap) (id : String) : Option String :=
  match assocStr tags id with
  | some t => if t = "" then none else some t
  | none => none

/-- Signed 32-bit wrap-around (JS `| 0` / `&` coercion). -/
def wrap32 (n : Int) : Int := (n + 2 ^ 31) % 2 ^ 32 - 2 ^ 31

/-- One step of the rolling hash: `hash = ((hash << 5) - hash) + charCode`
followed by the 32-bit coercion `hash = hash & hash`. -/
def hashStep (h : Int) (c : Char) : Int := wrap32 (wrap32 (h * 32) - h + c.toNat)

/-- Digit of `Number.prototype.toString(36)`. -/
def base36Digit (n : Nat) : Char :=
  if n < 10 then Char.ofNat (48 + n) else Char.ofNat (87 + n)

/-- Base-36 digit expansion, most significant first; the fuel bounds the
digit count (`n / 36` strictly decreases, so `n` steps always suffice). -/
def natToBase36Aux : Nat → Nat → List Char → List Char
  | 0, _, acc => acc
  | fuel + 1, n, acc =>
    if n = 0 then acc
    else natToBase36Aux fuel (n / 36) (base36Digit (n % 36) :: acc)

/-- `Math.abs(hash).toString(36)` for a natural number. -/
def natToBase36 (n : Nat) : String :=
  if n = 0 then "0" else String.mk (natToBase36Aux n n [])

/-- hashString from bookProcessingService.ts: 32-bit rolling hash of the
code units, then absolute value in base 36. -/
def hashString (s : String) : String :=
  natToBase36 (s.data.foldl hashStep 0).natAbs

/-- JS string `<` comparison (lexicographic on code units). -/
def charsLt : List Char → List Char → Bool
  | [], [] => false
  | [], _ :: _ => true
  | _ :: _, [] => false
  | a :: as, b :: bs => if a = b then charsLt as bs else decide (a < b)

/-- `a <= b` for JS strings. -/
def jsLe (a b : String) : Bool := !(charsLt b.data a.data)

/-- Insertion step of the default `Array.prototype.sort`. -/
def insertStr (s : String) : List String → List String
  | [] => [s]
  | t :: ts => if jsLe s t then s :: t :: ts else t :: insertStr s ts

/-- Default `Array.prototype.sort` on strings (ascending by code units). -/
def jsSort (l : List String) : List String := l.foldr insertStr []

/-- The group id of a tagged group: hash of the sorted member-id join. -/
def taggedGroupId (same : List ChapterData) : String :=
  hashString (String.intercalate "_" (jsSort (same.map (·.id))))

/-- One iteration of the grouping loop: push a singleton group for an
untagged chapter; on the first occurrence of a tag, push one group holding
every chapter whose assignment strictly equals that tag and mark the tag
consumed; skip chapters whose tag was already consumed. -/
def groupStep (all : List ChapterData) (tags : TagMap)
    (acc : List TempChapterGroup × List String) (ch : ChapterData) :
    List TempChapterGroup × List String :=
  match tagOf tags ch.id with
  | none => (acc.1 ++ [⟨none, [ch], ch.title⟩], acc.2)
  | some t =>
    if t ∈ acc.2 then acc
    else
      let same := all.filter (fun c => assocStr tags c.id = some t)
      (acc.1 ++ [⟨some t, same, taggedGroupId same⟩], t :: acc.2)

/-- BookProcessingService.groupChaptersByTag. -/
def groupChaptersByTag (chapters : List ChapterData) (tags : TagMap) :
    List TempChapterGroup :=
  (chapters.foldl (groupStep chapters tags) ([], [])).1

/-- Modelled from the spec's wording of the grouping contract: iterate the
chapters in input order; an untagged chapter immediately becomes its own
singleton group whose groupId is the chapter's title; the first occurrence
of a tag emits one group collecting all chapters sharing that tag
(regardless of position) with groupId the hash of the sorted member-id
join; later occurrences of a seen tag are skipped. -/
def groupSpecGo (all : List ChapterData) (tags : TagMap) :
    List ChapterData → List String → List TempChapterGroup
  | [], _ => []
  | ch :: rest, seen =>
    match tagOf tags ch.id with
    | none => ⟨none, [ch], ch.title⟩ :: groupSpecGo all tags rest seen
    | some t =>
      if t ∈ seen then groupSpecGo all tags rest seen
      else
        let same := all.filter (fun c => assocStr tags c.id = some t)
        ⟨some t, same, taggedGroupId same⟩ :: groupSpecGo all tags rest (t :: seen)

/-- The spec-worded grouping function. -/
def groupChaptersByTagSpec (chapters : List ChapterData) (tags : TagMap) :
    List TempChapterGroup :=
  groupSpecGo chapters tags chapters []

/-! ### The generation collaborator and AIService -/

/-- Final result of one transport call: accumulated content and reasoning. -/
structure GenResult where
  content : String
  reasoning : String
deriving DecidableEq, Repr

/-- The generation transport, one deterministic endpoint per stage kind,
keyed by the textual inputs from which the stage builds its prompt (prompt
templates and JSON decoding of mind-map payloads are collaborator-side and
abstracted into the oracle; a mid-flight abort or HTTP failure is an
`error` outcome). -/
structure Oracle where
  summarize : String → String → Except JsErr GenResult
  connections : String → Except JsErr GenResult
  overall : String → String → Except JsErr GenResult
  charRel : String → Except JsErr GenResult
  chapterMindMap : String → Except JsErr MEVal
  combinedMindMap : String → String → Except JsErr MEVal

/-- JS `\s` on the characters of interest (ASCII whitespace). -/
def isJsWs (c : Char) : Bool :=
  c = ' ' || c = '\t' || c = '\n' || c = '\r' || c = '\x0b' || c = '\x0c'

/-- JS `String.prototype.trim`. -/
def jsTrim (s : String) : String :=
  String.mk (((s.data.dropWhile isJsWs).reverse.dropWhile isJsWs).reverse)

/-- AIService.generateContent: abort pre-check, then the transport; errors
propagate raw. Returns the number of transport invocations performed. -/
def generateContent (tr : Except JsErr GenResult) (aborted : Bool) :
    Except JsErr GenResult × Nat :=
  if aborted then (.error (.abort "Request was aborted"), 0) else (tr, 1)

/-- AIService.generateContentStream: abort pre-check, then the transport;
an AbortError is rethrown unchanged, any other failure is rewrapped. -/
def generateContentStream (tr : Except JsErr GenResult) (aborted : Bool) :
    Except JsErr GenResult × Nat :=
  if aborted then (.error (.abort "Request was aborted"), 0)
  else
    match tr with
    | .error e =>
      (if e.name = "AbortError" then .error e
       else .error (.err ("Stream generation failed: " ++ e.message)), 1)
    | .ok r => (.ok r, 1)

/-- First occurrence of a pattern, if any. -/
def firstSub (pat l : List Char) : Option Nat :=
  ((List.range l.length).filter (fun p => decide (subAt pat l p))).head?

/-- The `/```mermaid\s*([\s\S]*?)```/` extraction: at the first occurrence
of the opening fence, greedily skip whitespace, then take lazily up to the
first closing fence (if the first opening fence has no closing fence there
is no later one either, since the opening fence contains a closing fence). -/
def extractMermaid (s : String) : Option String :=
  match firstSub "```mermaid".data s.data with
  | none => none
  | some p =>
    let u := (s.data.drop (p + 10)).dropWhile isJsWs
    match firstSub "```".data u with
    | none => none
    | some q => some (String.mk (u.take q))

namespace AIService

/-- AIService.summarizeChapter: streaming iff a stream callback was given;
validates against an empty summary; trims content and reasoning; its
catch-all rewraps every failure as a plain `Error` carrying the message. -/
def summarizeChapter (o : Oracle) (aborted : Bool) (title content : String)
    (stream : Bool) : Except JsErr GenResult × Nat :=
  let g := if stream then generateContentStream (o.summarize title content) aborted
           else generateContent (o.summarize title content) aborted
  match g.1 with
  | .error e => (.error (.err e.message), g.2)
  | .ok r =>
    if jsTrim r.content = "" then (.error (.err "AI返回了空的总结"), g.2)
    else (.ok ⟨jsTrim r.content, jsTrim r.reasoning⟩, g.2)

/-- `chapter.summary || '无总结'`. -/
def orNoSummary : Option String → String
  | some s => if s = "" then "无总结" else s
  | none => "无总结"

/-- The chapter-summaries block fed to connections / character analysis. -/
def chapterSummariesStr (chs : List Chapter) : String :=
  String.intercalate "\n\n" (chs.map (fun ch => ch.title ++ ":\n" ++ orNoSummary ch.summary))

/-- AIService.analyzeConnections: validates non-emptiness, returns the
trimmed content; all failures rewrapped with a stage prefix. -/
def analyzeConnections (o : Oracle) (aborted : Bool) (chs : List Chapter)
    (stream : Bool) : Except JsErr String × Nat :=
  let g := if stream then generateContentStream (o.connections (chapterSummariesStr chs)) aborted
           else generateContent (o.connections (chapterSummariesStr chs)) aborted
  match g.1 with
  | .error e => (.error (.err ("章节关联分析失败: " ++ e.message)), g.2)
  | .ok r =>
    if jsTrim r.content = "" then
      (.error (.err "章节关联分析失败: AI返回了空的关联分析"), g.2)
    else (.ok (jsTrim r.content), g.2)

/-- The numbered chapter-info lines of the overall-summary prompt. -/
def chapterInfoLines : Nat → List Chapter → List String
  | _, [] => []
  | i, ch :: rest =>
    ("第" ++ toString (i + 1) ++ "章：" ++ ch.title ++ "，内容：" ++ orNoSummary ch.summary)
      :: chapterInfoLines (i + 1) rest

/-- AIService.generateOverallSummary. -/
def generateOverallSummary (o : Oracle) (aborted : Bool) (bookTitle : String)
    (chs : List Chapter) (stream : Bool) : Except JsErr String × Nat :=
  let info := String.intercalate "\n" (chapterInfoLines 0 chs)
  let g := if stream then generateContentStream (o.overall bookTitle info) aborted
           else generateContent (o.overall bookTitle info) aborted
  match g.1 with
  | .error e => (.error (.err ("全书总结生成失败: " ++ e.message)), g.2)
  | .ok r =>
    if jsTrim r.content = "" then
      (.error (.err "全书总结生成失败: AI返回了空的全书总结"), g.2)
    else (.ok (jsTrim r.content), g.2)

/-- AIService.generateCharacterRelationship: non-streaming; validates
non-emptiness, extracts a truthy mermaid fenced block if present, trims. -/
def generateCharacterRelationship (o : Oracle) (aborted : Bool)
    (chs : List Chapter) : Except JsErr String × Nat :=
  let g := generateContent (o.charRel (chapterSummariesStr chs)) aborted
  match g.1 with
  | .error e => (.error (.err ("人物关系图生成失败: " ++ e.message)), g.2)
  | .ok r =>
    if jsTrim r.content = "" then
      (.error (.err "人物关系图生成失败: AI返回了空的人物关系图"), g.2)
    else
      match extractMermaid r.content with
      | some inner => if inner = "" then (.ok (jsTrim r.content), g.2) else (.ok (jsTrim inner), g.2)
      | none => (.ok (jsTrim r.content), g.2)

/-- AIService.generateChapterMindMap: abort pre-check then the transport
(the JSON decode, with its fenced-block fallback, is folded into the
oracle outcome); all failures rewrapped with a stage prefix. -/
def generateChapterMindMap (o : Oracle) (aborted : Bool) (content : String) :
    Except JsErr MEVal × Nat :=
  let g : Except JsErr MEVal × Nat :=
    if aborted then (.error (.abort "Request was aborted"), 0)
    else (o.chapterMindMap content, 1)
  match g.1 with
  | .error e => (.error (.err ("章节思维导图生成失败: " ++ e.message)), g.2)
  | .ok m => (.ok m, g.2)

/-- AIService.generateCombinedMindMap over the joined chapter contents. -/
def generateCombinedMindMap (o : Oracle) (aborted : Bool) (bookTitle : String)
    (chs : List Chapter) : Except JsErr MEVal × Nat :=
  let cc := String.intercalate "\n\n ------------- \n\n" (chs.map (·.content))
  let g : Except JsErr MEVal × Nat :=
    if aborted then (.error (.abort "Request was aborted"), 0)
    else (o.combinedMindMap bookTitle cc, 1)
  match g.1 with
  | .error e => (.error (.err ("整书思维导图生成失败: " ++ e.message)), g.2)
  | .ok m => (.ok m, g.2)

end AIService

/-! ### The per-stage cache-or-compute layer (BookProcessingService) -/

/-- Payload of the summary-stage stream callback (`{ summary, reasoning? }`). -/
structure CbSummary where
  summary : String
  reasoning : Option String
deriving DecidableEq, Repr

/-- Outcome of one stage: result or raised error, the store afterwards, the
number of transport invocations, and the observed stream-callback payloads. -/
structure StageOut (α : Type) (γ : Type) where
  res : Except JsErr α
  store : Store
  calls : Nat
  cb : List γ

/-- The book category switch. -/
inductive BookType where
  | fiction
  | non_fiction
deriving DecidableEq, Repr

namespace BookProcessingService

/-- The combined title of a group: `tag (t1, t2, ...)` when tagged, else the
single member's title. -/
def combinedTitle (g : TempChapterGroup) : String :=
  match g.tag with
  | some t => t ++ " (" ++ String.intercalate ", " (g.chapters.map (·.title)) ++ ")"
  | none => ((g.chapters.head?).map (·.title)).getD ""

/-- The combined content of a group: `## title\n\ncontent` blocks. -/
def combinedContent (g : TempChapterGroup) : String :=
  String.intercalate "\n\n" (g.chapters.map (fun ch => "## " ++ ch.title ++ "\n\n" ++ ch.content))

/-- `reasoning || undefined`. -/
def emptyToNone (s : String) : Option String := if s = "" then none else some s

/-- The ChapterGroup returned by the summary stage. -/
def mkSummaryGroup (g : TempChapterGroup) (summary reasoning : String) : ChapterGroup :=
  ⟨g.groupId, g.tag, g.chapters.map (·.id), g.chapters.map (·.title),
   some summary, emptyToNone reasoning, none⟩

/-- The member chapters returned by the summary stage. -/
def mkSummaryChapters (g : TempChapterGroup) (summary reasoning : String) : List Chapter :=
  g.chapters.map (fun ch => ⟨ch.id, ch.title, ch.content, some summary, emptyToNone reasoning, none⟩)

/-- The cache-miss path of processSummaryGroup: compute via the generation
service, fire the unconditional final stream callback, then persist the
summary (only the summary text is cached, never the reasoning). -/
def processSummaryMiss (env : Env) (o : Oracle) (aborted : Bool) (st : Store)
    (g : TempChapterGroup) (fileName : String) (hasCb : Bool) :
    StageOut (ChapterGroup × List Chapter) CbSummary :=
  let r := AIService.summarizeChapter o aborted (combinedTitle g) (combinedContent g) hasCb
  match r.1 with
  | .error e => ⟨.error e, st, r.2, []⟩
  | .ok gen =>
    let cb := if hasCb then [⟨gen.content, some gen.reasoning⟩] else []
    match CacheService.setCache env st fileName .summary (.str gen.content) (some g.groupId) with
    | .error e => ⟨.error e, st, r.2, cb⟩
    | .ok st' =>
      ⟨.ok (mkSummaryGroup g gen.content gen.reasoning,
            mkSummaryChapters g gen.content gen.reasoning), st', r.2, cb⟩

/-- BookProcessingService.processSummaryGroup: read the cached group summary
(a falsy — absent, non-string or empty — value is a miss); on a hit, replay
the full summary once through the stream callback and return it with no
reasoning; on a miss, compute and persist. -/
def processSummaryGroup (env : Env) (o : Oracle) (aborted : Bool) (st : Store)
    (g : TempChapterGroup) (fileName : String) (hasCb : Bool) :
    StageOut (ChapterGroup × List Chapter) CbSummary :=
  match CacheService.getString env st fileName .summary (some g.groupId) with
  | .error e => ⟨.error e, st, 0, []⟩
  | .ok cached =>
    match cached with
    | some s =>
      if s = "" then processSummaryMiss env o aborted st g fileName hasCb
      else
        ⟨.ok (mkSummaryGroup g s "", mkSummaryChapters g s ""), st, 0,
         if hasCb then [⟨s, none⟩] else []⟩
    | none => processSummaryMiss env o aborted st g fileName hasCb

/-- The ChapterGroup returned by the mind-map stage. -/
def mkMindGroup (g : TempChapterGroup) (m : MEVal) : ChapterGroup :=
  ⟨g.groupId, g.tag, g.chapters.map (·.id), g.chapters.map (·.title), none, none, some m⟩

/-- The member chapters returned by the mind-map stage. -/
def mkMindChapters (g : TempChapterGroup) (m : MEVal) : List Chapter :=
  g.chapters.map (fun ch => ⟨ch.id, ch.title, ch.content, none, none, some m⟩)

/-- BookProcessingService.processMindMapGroup: read the cached map; on a
miss, compute and persist it, and only then check `mindMap.nodeData` —
a rootless payload is cached before the failure is raised. -/
def processMindMapGroup (env : Env) (o : Oracle) (aborted : Bool) (st : Store)
    (g : TempChapterGroup) (fileName : String) :
    StageOut (ChapterGroup × List Chapter) CbSummary :=
  match CacheService.getMindMap env st fileName .mindmap (some g.groupId) with
  | .error e => ⟨.error e, st, 0, []⟩
  | .ok (some m) =>
    if m.nodeData.truthy then ⟨.ok (mkMindGroup g m, mkMindChapters g m), st, 0, []⟩
    else ⟨.error (.err "生成思维导图失败"), st, 0, []⟩
  | .ok none =>
    let r := AIService.generateChapterMindMap o aborted (combinedContent g)
    match r.1 with
    | .error e => ⟨.error e, st, r.2, []⟩
    | .ok m =>
      match CacheService.setCache env st fileName .mindmap (.mind m) (some g.groupId) with
      | .error e => ⟨.error e, st, r.2, []⟩
      | .ok st' =>
        if m.nodeData.truthy then ⟨.ok (mkMindGroup g m, mkMindChapters g m), st', r.2, []⟩
        else ⟨.error (.err "生成思维导图失败"), st', r.2, []⟩

/-- The shared cache-miss path of the three string-valued book-level
stages (connections / overall summary / character relationship): the
generation outcome, the unconditional final callback, then a single cache
write whose failure propagates. -/
def stringStageMiss (env : Env) (st : Store) (fileName : String) (ty : CacheKeyType)
    (ai : Except JsErr String × Nat) (hasCb : Bool) : StageOut String String :=
  match ai with
  | (.error e, n) => ⟨.error e, st, n, []⟩
  | (.ok v, n) =>
    let cb := if hasCb then [v] else []
    match CacheService.setCache env st fileName ty (.str v) none with
    | .error e => ⟨.error e, st, n, cb⟩
    | .ok st' => ⟨.ok v, st', n, cb⟩

/-- The shared shape of the string-valued book-level stages: read the cached
text (a falsy value is a miss); on a hit replay it once through the callback
and perform no generation; on a miss compute and persist. -/
def stringStage (env : Env) (st : Store) (fileName : String) (ty : CacheKeyType)
    (ai : Except JsErr String × Nat) (hasCb : Bool) : StageOut String String :=
  match CacheService.getString env st fileName ty none with
  | .error e => ⟨.error e, st, 0, []⟩
  | .ok cached =>
    match cached with
    | some s =>
      if s = "" then stringStageMiss env st fileName ty ai hasCb
      else ⟨.ok s, st, 0, if hasCb then [s] else []⟩
    | none => stringStageMiss env st fileName ty ai hasCb

/-- BookProcessingService.generateConnections: cache-hit replays the cached
text once through the callback; miss runs analyzeConnections and persists. -/
def generateConnections (env : Env) (o : Oracle) (aborted : Bool) (st : Store)
    (fileName : String) (chs : List Chapter) (hasCb : Bool) : StageOut String String :=
  stringStage env st fileName .connections (AIService.analyzeConnections o aborted chs hasCb) hasCb

/-- BookProcessingService.generateOverallSummary. -/
def generateOverallSummaryStage (env : Env) (o : Oracle) (aborted : Bool) (st : Store)
    (fileName bookTitle : String) (chs : List Chapter) (hasCb : Bool) :
    StageOut String String :=
  stringStage env st fileName .overall_summary
    (AIService.generateOverallSummary o aborted bookTitle chs hasCb) hasCb

/-- BookProcessingService.generateCharacterRelationship (no callback). -/
def generateCharacterRelationshipStage (env : Env) (o : Oracle) (aborted : Bool)
    (st : Store) (fileName : String) (chs : List Chapter) : StageOut String String :=
  stringStage env st fileName .character_relationship
    (AIService.generateCharacterRelationship o aborted chs) false

/-- `chapter.mindMap?.nodeData?.children || []`. -/
def childrenOf (m : Option MEVal) : List MindNode :=
  match m with
  | some mv =>
    match mv.nodeData with
    | .root (.node _ _ _ cs) => cs
    | _ => []
  | none => []

/-- `chapter.mindMap?.summaries || []`. -/
def summariesOf (m : Option MEVal) : List String :=
  match m with
  | some mv => mv.summaries
  | none => []

/-- The per-chapter child nodes of the merged map: topic is the chapter
title, id is `chapter_{index+1}`, children are the chapter's map children. -/
def mergeChildren : Nat → List Chapter → List MindNode
  | _, [] => []
  | i, ch :: rest =>
    .node ch.title ("chapter_" ++ toString (i + 1)) [] (childrenOf ch.mindMap)
      :: mergeChildren (i + 1) rest

/-- The merged mind map built by mergeMindMaps on a cache miss. -/
def mergedVal (bookTitle : String) (chs : List Chapter) : MEVal :=
  ⟨.root (.node bookTitle "0" ["全书"] (mergeChildren 0 chs)), [],
   (chs.map (fun ch => summariesOf ch.mindMap)).flatten⟩

/-- BookProcessingService.mergeMindMaps: return the cached merged map if
present, else build the merged root (book title, synthetic per-chapter ids)
and persist it under the `merged_mindmap` kind. Performs no generation. -/
def mergeMindMaps (env : Env) (st : Store) (fileName bookTitle : String)
    (chs : List Chapter) : StageOut MEVal CbSummary :=
  match CacheService.getMindMap env st fileName .merged_mindmap none with
  | .error e => ⟨.error e, st, 0, []⟩
  | .ok (some m) => ⟨.ok m, st, 0, []⟩
  | .ok none =>
    let m := mergedVal bookTitle chs
    match CacheService.setCache env st fileName .merged_mindmap (.mind m) none with
    | .error e => ⟨.error e, st, 0, []⟩
    | .ok st' => ⟨.ok m, st', 0, []⟩

/-- BookProcessingService.generateCombinedMindMap: cached whole-book map or
one generation over the joined contents; the result is persisted without
any root-node validation. -/
def generateCombinedMindMapStage (env : Env) (o : Oracle) (aborted : Bool)
    (st : Store) (fileName bookTitle : String) (chs : List Chapter) :
    StageOut MEVal CbSummary :=
  match CacheService.getMindMap env st fileName .combined_mindmap none with
  | .error e => ⟨.error e, st, 0, []⟩
  | .ok (some m) => ⟨.ok m, st, 0, []⟩
  | .ok none =>
    let r := AIService.generateCombinedMindMap o aborted bookTitle chs
    match r.1 with
    | .error e => ⟨.error e, st, r.2, []⟩
    | .ok m =>
      match CacheService.setCache env st fileName .combined_mindmap (.mind m) none with
      | .error e => ⟨.error e, st, r.2, []⟩
      | .ok st' => ⟨.ok m, st', r.2, []⟩

end BookProcessingService

/-! ### The pipeline (SummaryPage.handleStartProcessing) -/

/-- The processing mode selected in the configuration store. -/
inductive ProcessingMode where
  | summary
  | mindmap
  | combined_mindmap
deriving DecidableEq, Repr

/-- The artifacts surfaced by one pipeline run. -/
structure PipeResult where
  groups : List ChapterGroup
  chapters : List Chapter
  connections : Option String
  characterRelationship : Option String
  overallSummary : Option String
  combinedMindMap : Option MEVal

/-- Outcome of the per-group phase. -/
structure PhaseOut where
  res : Except JsErr (List ChapterGroup × List Chapter)
  store : Store
  calls : Nat

/-- Outcome of a whole pipeline run. -/
structure PipeOut where
  res : Except JsErr PipeResult
  store : Store
  calls : Nat

/-- The sequential per-group loop of summary mode. -/
def runSummaryGroups (env : Env) (o : Oracle) (aborted : Bool) (fileName : String) :
    Store → List TempChapterGroup → PhaseOut
  | st, [] => ⟨.ok ([], []), st, 0⟩
  | st, g :: rest =>
    let r := BookProcessingService.processSummaryGroup env o aborted st g fileName true
    match r.res with
    | .error e => ⟨.error e, r.store, r.calls⟩
    | .ok (pg, pcs) =>
      let rr := runSummaryGroups env o aborted fileName r.store rest
      match rr.res with
      | .error e => ⟨.error e, rr.store, r.calls + rr.calls⟩
      | .ok (gs, cs) => ⟨.ok (pg :: gs, pcs ++ cs), rr.store, r.calls + rr.calls⟩

/-- The sequential per-group loop of chapter-mind-map mode. -/
def runMindGroups (env : Env) (o : Oracle) (aborted : Bool) (fileName : String) :
    Store → List TempChapterGroup → PhaseOut
  | st, [] => ⟨.ok ([], []), st, 0⟩
  | st, g :: rest =>
    let r := BookProcessingService.processMindMapGroup env o aborted st g fileName
    match r.res with
    | .error e => ⟨.error e, r.store, r.calls⟩
    | .ok (pg, pcs) =>
      let rr := runMindGroups env o aborted fileName r.store rest
      match rr.res with
      | .error e => ⟨.error e, rr.store, r.calls + rr.calls⟩
      | .ok (gs, cs) => ⟨.ok (pg :: gs, pcs ++ cs), rr.store, r.calls + rr.calls⟩

/-- The group placeholder pushed in combined-mind-map mode. -/
def plainGroup (g : TempChapterGroup) : ChapterGroup :=
  ⟨g.groupId, g.tag, g.chapters.map (·.id), g.chapters.map (·.title), none, none, none⟩

/-- The chapters pushed in combined-mind-map mode. -/
def plainChapters (g : TempChapterGroup) : List Chapter :=
  g.chapters.map (fun ch => ⟨ch.id, ch.title, ch.content, none, none, none⟩)

/-- The processing core of SummaryPage.handleStartProcessing: group the
selected chapters by tag, run the per-group stages sequentially, then the
mode's tail stages (summary mode: connections, character relationship only
for fiction, overall summary; mind-map mode: merge; combined mode: one
whole-book generation). -/
def runPipeline (env : Env) (o : Oracle) (aborted : Bool) (st : Store)
    (fileName bookTitle : String) (chapters : List ChapterData) (tags : TagMap)
    (mode : ProcessingMode) (bookType : BookType) : PipeOut :=
  let groups := groupChaptersByTag chapters tags
  match mode with
  | .summary =>
    let ph := runSummaryGroups env o aborted fileName st groups
    match ph.res with
    | .error e => ⟨.error e, ph.store, ph.calls⟩
    | .ok (gs, cs) =>
      let c1 := BookProcessingService.generateConnections env o aborted ph.store fileName cs true
      match c1.res with
      | .error e => ⟨.error e, c1.store, ph.calls + c1.calls⟩
      | .ok conn =>
        match bookType with
        | .fiction =>
          let c2 := BookProcessingService.generateCharacterRelationshipStage env o aborted
            c1.store fileName cs
          match c2.res with
          | .error e => ⟨.error e, c2.store, ph.calls + c1.calls + c2.calls⟩
          | .ok rel =>
            let c3 := BookProcessingService.generateOverallSummaryStage env o aborted
              c2.store fileName bookTitle cs true
            match c3.res with
            | .error e => ⟨.error e, c3.store, ph.calls + c1.calls + c2.calls + c3.calls⟩
            | .ok ov =>
              ⟨.ok ⟨gs, cs, some conn, some rel, some ov, none⟩, c3.store,
               ph.calls + c1.calls + c2.calls + c3.calls⟩
        | .non_fiction =>
          let c3 := BookProcessingService.generateOverallSummaryStage env o aborted
            c1.store fileName bookTitle cs true
          match c3.res with
          | .error e => ⟨.error e, c3.store, ph.calls + c1.calls + c3.calls⟩
          | .ok ov =>
            ⟨.ok ⟨gs, cs, some conn, none, some ov, none⟩, c3.store,
             ph.calls + c1.calls + c3.calls⟩
  | .mindmap =>
    let ph := runMindGroups env o aborted fileName st groups
    match ph.res with
    | .error e => ⟨.error e, ph.store, ph.calls⟩
    | .ok (gs, cs) =>
      let mg := BookProcessingService.mergeMindMaps env ph.store fileName bookTitle cs
      match mg.res with
      | .error e => ⟨.error e, mg.store, ph.calls + mg.calls⟩
      | .ok m =>
        ⟨.ok ⟨gs, cs, none, none, none, some m⟩, mg.store, ph.calls + mg.calls⟩
  | .combined_mindmap =>
    let gs := groups.map plainGroup
    let cs := (groups.map plainChapters).flatten
    let cg := BookProcessingService.generateCombinedMindMapStage env o aborted st
      fileName bookTitle cs
    match cg.res with
    | .error e => ⟨.error e, cg.store, cg.calls⟩
    | .ok m => ⟨.ok ⟨gs, cs, none, none, none, some m⟩, cg.store, cg.calls⟩

/-! ### Basic store lemmas -/

theorem lookup_append (a b : Store) (k : String) :
    lookup (a ++ b) k = ((lookup a k).rec (lookup b k) (fun v => some v)) := by
  induction a with
  | nil => simp [lookup]
  | cons e rest ih =>
    obtain ⟨k', v⟩ := e
    by_cases h : k' = k <;> simp [lookup, h, ih]

theorem lookup_removeItem (st : Store) (k k' : String) :
    lookup (removeItem st k) k' = if k' = k then none else lookup st k' := by
  induction st with
  | nil => simp [removeItem, lookup]
  | cons e rest ih =>
    obtain ⟨k₀, v⟩ := e
    simp only [removeItem]
    by_cases h : k₀ = k
    · subst h
      rw [if_pos rfl, ih]
      by_cases h' : k' = k₀
      · simp [h']
      · have hne : k₀ ≠ k' := fun hh => h' hh.symm
        simp [h', lookup, hne]
    · rw [if_neg h]
      by_cases h' : k₀ = k'
      · subst h'
        have hk : ¬ (k₀ = k) := h
        simp [lookup, hk]
      · simp [lookup, h', ih]

theorem lookup_setItem_self (st : Store) (k : String) (v : CacheValue) :
    lookup (setItem st k v) k = some v := by
  simp [setItem, lookup_append, lookup_removeItem, lookup]

theorem lookup_setItem_ne (st : Store) (k k' : String) (v : CacheValue) (h : k' ≠ k) :
    lookup (setItem st k v) k' = lookup st k' := by
  simp only [setItem, lookup_append, lookup_removeItem, if_neg h]
  cases lookup st k' <;> simp [lookup, h, Ne.symm h]

/-! ### Claim 6: the grouping algorithm -/

theorem groupFold (all : List ChapterData) (tags : TagMap) :
    ∀ (rest : List ChapterData) (gs : List TempChapterGroup) (seen : List String),
      (rest.foldl (groupStep all tags) (gs, seen)).1 = gs ++ groupSpecGo all tags rest seen := by
  intro rest
  induction rest with
  | nil => intro gs seen; simp [groupSpecGo]
  | cons ch rest ih =>
    intro gs seen
    simp only [List.foldl_cons]
    cases h : tagOf tags ch.id with
    | none => simp [groupStep, groupSpecGo, h, ih]
    | some t =>
      by_cases ht : t ∈ seen
      · simp [groupStep, groupSpecGo, h, ht, ih]
      · simp [groupStep, groupSpecGo, h, ht, ih]

/-- Claim C6: groupChaptersByTag iterates the chapters in input order; an
untagged chapter immediately becomes its own singleton group with the
chapter's title as groupId; the first occurrence of a tag produces one group
collecting all chapters sharing that tag regardless of position, with
groupId the deterministic hash of the sorted member-id join; later
occurrences of an already-seen tag are skipped, so group order reflects
first-occurrence order (the loop equals the spec-worded recursion). -/
theorem claim6_group_algorithm (chapters : List ChapterData) (tags : TagMap) :
    groupChaptersByTag chapters tags = groupChaptersByTagSpec chapters tags := by
  simpa [groupChaptersByTag, groupChaptersByTagSpec] using groupFold chapters tags chapters [] []

/-! ### Claim 10: deletion counting -/

/-- The store after clearBookCache's five unconditional book-level removes
in summary mode. -/
def clearBase (st : Store) (fn : String) : Store :=
  removeItem (removeItem (removeItem (removeItem (removeItem st
    (CacheService.generateKey fn .selected_chapters none))
    (CacheService.generateKey fn .chapter_tags none))
    (CacheService.generateKey fn .connections none))
    (CacheService.generateKey fn .character_relationship none))
    (CacheService.generateKey fn .overall_summary none)

theorem removeKeysCount_count (env : Env) (h : env.removeFails = false) (ks : List String) :
    ∀ st, (CacheService.removeKeysCount env st ks).2 = ks.length := by
  induction ks with
  | nil => intro st; rfl
  | cons k rest ih =>
    intro st
    simp only [CacheService.removeKeysCount, h]
    simp [ih]
    omega

/-- Claim C10: with a working store, deleteCache and deleteCacheByKey return
`true` whether or not the key was present and leave every other key
unchanged, and clearBookCache's summary-mode count is five (the attempted
book-level deletions: selected_chapters, chapter_tags, connections,
character_relationship, overall_summary) plus the number of matching
chapter-summary keys, independently of whether those book-level entries
existed. -/
theorem claim10_delete_counts (st : Store) (fn k k' : String) (ty : CacheKeyType)
    (cid : Option String)
    (hne : k' ≠ CacheService.generateKey fn ty cid) (hne2 : k' ≠ k) :
    (CacheService.deleteCache noFault st fn ty cid).2 = true ∧
    lookup (CacheService.deleteCache noFault st fn ty cid).1 k' = lookup st k' ∧
    (CacheService.deleteCacheByKey noFault st k).2 = true ∧
    lookup (CacheService.deleteCacheByKey noFault st k).1 k' = lookup st k' ∧
    (CacheService.clearBookCache noFault st fn .summary).2 =
      5 + ((keysOf (clearBase st fn)).filter
        (CacheService.sweepMatch ("book_" ++ cleanFilename fn ++ "_") "_summary")).length := by
  refine ⟨rfl, ?_, rfl, ?_, ?_⟩
  · simp [CacheService.deleteCache, noFault, lookup_removeItem, hne]
  · simp [CacheService.deleteCacheByKey, noFault, lookup_removeItem, hne2]
  · simp only [CacheService.clearBookCache, CacheService.deleteCache, CacheService.cnt,
      clearBase, show noFault.removeFails = false from rfl, Bool.false_eq_true, if_false]
    rw [removeKeysCount_count noFault rfl]
    simp only [if_pos trivial]

theorem claim10_witness :
    ("zz" ≠ CacheService.generateKey "b" .connections none) ∧ ("zz" ≠ ("a" : String)) ∧
    ((CacheService.deleteCache noFault [] "b" .connections none).2 = true ∧
     lookup (CacheService.deleteCache noFault [] "b" .connections none).1 "zz" = lookup [] "zz" ∧
     (CacheService.deleteCacheByKey noFault [] "a").2 = true ∧
     lookup (CacheService.deleteCacheByKey noFault [] "a").1 "zz" = lookup [] "zz" ∧
     (CacheService.clearBookCache noFault [] "b" .summary).2 =
       5 + ((keysOf (clearBase [] "b")).filter
         (CacheService.sweepMatch ("book_" ++ cleanFilename "b" ++ "_") "_summary")).length) :=
  ⟨by decide, by decide,
   claim10_delete_counts [] "b" "a" "zz" .connections none (by decide) (by decide)⟩

/-! ### Stage-level lemmas shared by several claims -/

/-- The cache key of a group's summary stage. -/
def psgKey (fn : String) (g : TempChapterGroup) : String :=
  CacheService.generateKey fn .summary (some g.groupId)

/-- The cache key of a group's mind-map stage. -/
def mmKey (fn : String) (g : TempChapterGroup) : String :=
  CacheService.generateKey fn .mindmap (some g.groupId)

/-- The key holds a truthy string — the stage's cache-hit condition. -/
def strHitAt (st : Store) (k : String) : Prop :=
  ∃ s, lookup st k = some (CacheValue.str s) ∧ s ≠ ""

/-- The key holds a mind-map object with a `nodeData` field — the
`getMindMap` hit condition. -/
def mindHitAt (st : Store) (k : String) : Prop :=
  ∃ m, lookup st k = some (CacheValue.mind m) ∧ m.nodeData.present = true

theorem getString_read (env : Env) (h : env.readFails = false) (st : Store)
    (fn : String) (ty : CacheKeyType) (cid : Option String) :
    CacheService.getString env st fn ty cid =
      .ok (match lookup st (CacheService.generateKey fn ty cid) with
           | some (.str s) => some s
           | _ => none) := by
  simp [CacheService.getString, CacheService.getItemE, h]

theorem getMindMap_read (env : Env) (h : env.readFails = false) (st : Store)
    (fn : String) (ty : CacheKeyType) (cid : Option String) :
    CacheService.getMindMap env st fn ty cid =
      .ok (match lookup st (CacheService.generateKey fn ty cid) with
           | some (.mind m) => if m.nodeData.present then some m else none
           | _ => none) := by
  simp [CacheService.getMindMap, CacheService.getItemE, h]

theorem summarize_abort (o : Oracle) (t c : String) (stream : Bool) :
    AIService.summarizeChapter o true t c stream = (.error (.err "Request was aborted"), 0) := by
  cases stream <;> rfl

theorem summarize_transport_abort (o : Oracle) (t c m : String) (stream : Bool)
    (h : o.summarize t c = .error (.abort m)) :
    AIService.summarizeChapter o false t c stream = (.error (.err m), 1) := by
  cases stream <;>
    simp [AIService.summarizeChapter, generateContent, generateContentStream, h,
      JsErr.name, JsErr.message]

theorem summarize_empty (o : Oracle) (t c : String) (stream : Bool) (raw : GenResult)
    (h : o.summarize t c = .ok raw) (he : jsTrim raw.content = "") :
    AIService.summarizeChapter o false t c stream = (.error (.err "AI返回了空的总结"), 1) := by
  cases stream <;>
    simp [AIService.summarizeChapter, generateContent, generateContentStream, h, he]

theorem summarize_ok_spec (o : Oracle) (t c : String) (stream : Bool) (raw : GenResult)
    (h : o.summarize t c = .ok raw) (he : jsTrim raw.content ≠ "") :
    AIService.summarizeChapter o false t c stream =
      (.ok ⟨jsTrim raw.content, jsTrim raw.reasoning⟩, 1) := by
  cases stream <;>
    simp [AIService.summarizeChapter, generateContent, generateContentStream, h, he]

theorem summarize_ok_inv (o : Oracle) (ab : Bool) (t c : String) (stream : Bool)
    (gen : GenResult) (h : (AIService.summarizeChapter o ab t c stream).1 = .ok gen) :
    ab = false ∧ ∃ raw, o.summarize t c = .ok raw ∧
      gen = ⟨jsTrim raw.content, jsTrim raw.reasoning⟩ ∧ jsTrim raw.content ≠ "" ∧
      (AIService.summarizeChapter o ab t c stream).2 = 1 := by
  cases ab
  · refine ⟨rfl, ?_⟩
    cases ho : o.summarize t c with
    | error e =>
      exfalso
      cases stream
      · simp [AIService.summarizeChapter, generateContent, ho] at h
      · simp only [AIService.summarizeChapter, generateContentStream, ho] at h
        by_cases hb : e.name = "AbortError" <;> simp [hb] at h
    | ok raw =>
      by_cases he : jsTrim raw.content = ""
      · rw [summarize_empty o t c stream raw ho he] at h; simp at h
      · rw [summarize_ok_spec o t c stream raw ho he] at h
        simp at h
        subst h
        exact ⟨raw, rfl, rfl, he, by rw [summarize_ok_spec o t c stream raw ho he]⟩
  · rw [summarize_abort o t c stream] at h; simp at h

theorem psg_hit (env : Env) (hr : env.readFails = false) (o : Oracle) (ab : Bool)
    (st : Store) (g : TempChapterGroup) (fn : String) (cbf : Bool) (s : String)
    (hs : lookup st (psgKey fn g) = some (.str s)) (hne : s ≠ "") :
    BookProcessingService.processSummaryGroup env o ab st g fn cbf =
      ⟨.ok (BookProcessingService.mkSummaryGroup g s "",
            BookProcessingService.mkSummaryChapters g s ""), st, 0,
       if cbf then [⟨s, none⟩] else []⟩ := by
  rw [BookProcessingService.processSummaryGroup, getString_read env hr]
  rw [psgKey] at hs
  rw [hs]
  simp [hne]

theorem psg_read_fail (env : Env) (hr : env.readFails = true) (o : Oracle) (ab : Bool)
    (st : Store) (g : TempChapterGroup) (fn : String) (cbf : Bool) :
    BookProcessingService.processSummaryGroup env o ab st g fn cbf =
      ⟨.error (.store "getItem failed"), st, 0, []⟩ := by
  rw [BookProcessingService.processSummaryGroup]
  simp [CacheService.getString, CacheService.getItemE, hr]

theorem psg_not_hit_miss (env : Env) (hr : env.readFails = false) (o : Oracle) (ab : Bool)
    (st : Store) (g : TempChapterGroup) (fn : String) (cbf : Bool)
    (hmiss : ¬ strHitAt st (psgKey fn g)) :
    BookProcessingService.processSummaryGroup env o ab st g fn cbf =
      BookProcessingService.processSummaryMiss env o ab st g fn cbf := by
  rw [BookProcessingService.processSummaryGroup, getString_read env hr]
  rcases hv : lookup st (CacheService.generateKey fn .summary (some g.groupId)) with _ | v
  · simp
  · cases v with
    | str s =>
      have hs : s = "" := by
        by_contra hne
        exact hmiss ⟨s, by rw [psgKey]; exact hv, hne⟩
      simp [hs]
    | mind m => simp
    | strList l => simp
    | strMap l => simp
    | boolVal b => simp

theorem psg_miss_abort (env : Env) (hr : env.readFails = false) (o : Oracle)
    (st : Store) (g : TempChapterGroup) (fn : String) (cbf : Bool)
    (hmiss : ¬ strHitAt st (psgKey fn g)) :
    BookProcessingService.processSummaryGroup env o true st g fn cbf =
      ⟨.error (.err "Request was aborted"), st, 0, []⟩ := by
  rw [psg_not_hit_miss env hr o true st g fn cbf hmiss]
  rw [BookProcessingService.processSummaryMiss, summarize_abort]

theorem psg_miss_ok (env : Env) (hr : env.readFails = false) (hw : env.writeFails = false)
    (o : Oracle) (st : Store) (g : TempChapterGroup) (fn : String) (cbf : Bool)
    (raw : GenResult) (hmiss : ¬ strHitAt st (psgKey fn g))
    (ho : o.summarize (BookProcessingService.combinedTitle g)
            (BookProcessingService.combinedContent g) = .ok raw)
    (hne : jsTrim raw.content ≠ "") :
    BookProcessingService.processSummaryGroup env o false st g fn cbf =
      ⟨.ok (BookProcessingService.mkSummaryGroup g (jsTrim raw.content) (jsTrim raw.reasoning),
            BookProcessingService.mkSummaryChapters g (jsTrim raw.content) (jsTrim raw.reasoning)),
       setItem st (psgKey fn g) (.str (jsTrim raw.content)), 1,
       if cbf then [⟨jsTrim raw.content, some (jsTrim raw.reasoning)⟩] else []⟩ := by
  rw [psg_not_hit_miss env hr o false st g fn cbf hmiss]
  rw [BookProcessingService.processSummaryMiss, summarize_ok_spec o _ _ cbf raw ho hne]
  simp [CacheService.setCache, CacheService.setItemE, hw, psgKey]

theorem summarize_err (o : Oracle) (t c : String) (stream : Bool) (e : JsErr)
    (h : o.summarize t c = .error e) :
    ∃ m, AIService.summarizeChapter o false t c stream = (.error (.err m), 1) := by
  cases stream
  · exact ⟨e.message, by simp [AIService.summarizeChapter, generateContent, h]⟩
  · by_cases hb : e.name = "AbortError"
    · refine ⟨e.message, ?_⟩
      simp [AIService.summarizeChapter, generateContentStream, h, hb]
    · refine ⟨"Stream generation failed: " ++ e.message, ?_⟩
      simp [AIService.summarizeChapter, generateContentStream, h, hb, JsErr.message]

theorem psg_miss_err (env : Env) (hr : env.readFails = false) (o : Oracle) (st : Store)
    (g : TempChapterGroup) (fn : String) (cbf : Bool) (e : JsErr)
    (hmiss : ¬ strHitAt st (psgKey fn g))
    (ho : o.summarize (BookProcessingService.combinedTitle g)
            (BookProcessingService.combinedContent g) = .error e) :
    ∃ m, BookProcessingService.processSummaryGroup env o false st g fn cbf =
      ⟨.error (.err m), st, 1, []⟩ := by
  obtain ⟨m, hm⟩ := summarize_err o _ _ cbf e ho
  refine ⟨m, ?_⟩
  rw [psg_not_hit_miss env hr o false st g fn cbf hmiss,
    BookProcessingService.processSummaryMiss, hm]

theorem psg_miss_empty (env : Env) (hr : env.readFails = false) (o : Oracle) (st : Store)
    (g : TempChapterGroup) (fn : String) (cbf : Bool) (raw : GenResult)
    (hmiss : ¬ strHitAt st (psgKey fn g))
    (ho : o.summarize (BookProcessingService.combinedTitle g)
            (BookProcessingService.combinedContent g) = .ok raw)
    (he : jsTrim raw.content = "") :
    BookProcessingService.processSummaryGroup env o false st g fn cbf =
      ⟨.error (.err "AI返回了空的总结"), st, 1, []⟩ := by
  rw [psg_not_hit_miss env hr o false st g fn cbf hmiss,
    BookProcessingService.processSummaryMiss, summarize_empty o _ _ cbf raw ho he]

theorem psg_success (env : Env) (hr : env.readFails = false) (hw : env.writeFails = false)
    (o : Oracle) (ab : Bool) (st : Store) (g : TempChapterGroup) (fn : String) (cbf : Bool)
    (pg : ChapterGroup) (pcs : List Chapter) (st' : Store) (n : Nat) (cb : List CbSummary)
    (h : BookProcessingService.processSummaryGroup env o ab st g fn cbf =
      ⟨.ok (pg, pcs), st', n, cb⟩) :
    ∃ s r', pg = BookProcessingService.mkSummaryGroup g s r' ∧
      pcs = BookProcessingService.mkSummaryChapters g s r' ∧ s ≠ "" ∧
      ((st' = st ∧ lookup st (psgKey fn g) = some (.str s) ∧ r' = "" ∧ n = 0)
       ∨ (st' = setItem st (psgKey fn g) (.str s) ∧ ¬ strHitAt st (psgKey fn g) ∧ n = 1)) := by
  by_cases hhit : strHitAt st (psgKey fn g)
  · obtain ⟨s, hs, hne⟩ := hhit
    rw [psg_hit env hr o ab st g fn cbf s hs hne] at h
    obtain ⟨h1, h2, h3, h4⟩ := StageOut.mk.inj h
    obtain ⟨hg, hc⟩ := Prod.mk.inj (Except.ok.inj h1)
    exact ⟨s, "", hg.symm, hc.symm, hne, Or.inl ⟨h2.symm, hs, rfl, h3.symm⟩⟩
  · cases ab with
    | true =>
      rw [psg_miss_abort env hr o st g fn cbf hhit] at h
      exact absurd (StageOut.mk.inj h).1 (by simp)
    | false =>
      cases ho : o.summarize (BookProcessingService.combinedTitle g)
          (BookProcessingService.combinedContent g) with
      | error e =>
        obtain ⟨m, hm⟩ := psg_miss_err env hr o st g fn cbf e hhit ho
        rw [hm] at h
        exact absurd (StageOut.mk.inj h).1 (by simp)
      | ok raw =>
        by_cases he : jsTrim raw.content = ""
        · rw [psg_miss_empty env hr o st g fn cbf raw hhit ho he] at h
          exact absurd (StageOut.mk.inj h).1 (by simp)
        · rw [psg_miss_ok env hr hw o st g fn cbf raw hhit ho he] at h
          obtain ⟨h1, h2, h3, h4⟩ := StageOut.mk.inj h
          obtain ⟨hg, hc⟩ := Prod.mk.inj (Except.ok.inj h1)
          exact ⟨jsTrim raw.content, jsTrim raw.reasoning, hg.symm, hc.symm, he,
            Or.inr ⟨h2.symm, hhit, h3.symm⟩⟩

/-! ### Lemmas on the string-valued book-level stages -/

/-- The book-level key of a cache key type. -/
def bookKey (fn : String) (ty : CacheKeyType) : String :=
  CacheService.generateKey fn ty none

theorem sstage_hit (env : Env) (hr : env.readFails = false) (st : Store) (fn : String)
    (ty : CacheKeyType) (ai : Except JsErr String × Nat) (cbf : Bool) (s : String)
    (hs : lookup st (bookKey fn ty) = some (.str s)) (hne : s ≠ "") :
    BookProcessingService.stringStage env st fn ty ai cbf =
      ⟨.ok s, st, 0, if cbf then [s] else []⟩ := by
  rw [BookProcessingService.stringStage, getString_read env hr]
  rw [bookKey] at hs
  rw [hs]
  simp [hne]

theorem sstage_not_hit (env : Env) (hr : env.readFails = false) (st : Store) (fn : String)
    (ty : CacheKeyType) (ai : Except JsErr String × Nat) (cbf : Bool)
    (hmiss : ¬ strHitAt st (bookKey fn ty)) :
    BookProcessingService.stringStage env st fn ty ai cbf =
      BookProcessingService.stringStageMiss env st fn ty ai cbf := by
  rw [BookProcessingService.stringStage, getString_read env hr]
  rcases hv : lookup st (CacheService.generateKey fn ty none) with _ | v
  · simp
  · cases v with
    | str s =>
      have hs : s = "" := by
        by_contra hne
        exact hmiss ⟨s, by rw [bookKey]; exact hv, hne⟩
      simp [hs]
    | mind m => simp
    | strList l => simp
    | strMap l => simp
    | boolVal b => simp

theorem sstage_miss_err (env : Env) (st : Store) (fn : String) (ty : CacheKeyType)
    (e : JsErr) (n : Nat) (cbf : Bool) :
    BookProcessingService.stringStageMiss env st fn ty (.error e, n) cbf =
      ⟨.error e, st, n, []⟩ := rfl

theorem sstage_miss_ok (env : Env) (hw : env.writeFails = false) (st : Store) (fn : String)
    (ty : CacheKeyType) (v : String) (n : Nat) (cbf : Bool) :
    BookProcessingService.stringStageMiss env st fn ty (.ok v, n) cbf =
      ⟨.ok v, setItem st (bookKey fn ty) (.str v), n, if cbf then [v] else []⟩ := by
  simp [BookProcessingService.stringStageMiss, CacheService.setCache,
    CacheService.setItemE, hw, bookKey]

theorem sstage_success (env : Env) (hr : env.readFails = false) (hw : env.writeFails = false)
    (st : Store) (fn : String) (ty : CacheKeyType) (ai : Except JsErr String × Nat)
    (cbf : Bool) (v : String) (st' : Store) (n : Nat) (cb : List String)
    (h : BookProcessingService.stringStage env st fn ty ai cbf = ⟨.ok v, st', n, cb⟩) :
    (st' = st ∧ lookup st (bookKey fn ty) = some (.str v) ∧ v ≠ "" ∧ n = 0) ∨
    (st' = setItem st (bookKey fn ty) (.str v) ∧ ¬ strHitAt st (bookKey fn ty) ∧
      ai = (.ok v, n)) := by
  by_cases hhit : strHitAt st (bookKey fn ty)
  · obtain ⟨s, hs, hne⟩ := hhit
    rw [sstage_hit env hr st fn ty ai cbf s hs hne] at h
    obtain ⟨h1, h2, h3, h4⟩ := StageOut.mk.inj h
    exact Or.inl ⟨h2.symm, by rw [hs, Except.ok.inj h1], by rw [← Except.ok.inj h1]; exact hne,
      h3.symm⟩
  · rw [sstage_not_hit env hr st fn ty ai cbf hhit] at h
    obtain ⟨r, n₀⟩ := ai
    cases r with
    | error e =>
      rw [sstage_miss_err] at h
      exact absurd (StageOut.mk.inj h).1 (by simp)
    | ok v₀ =>
      rw [sstage_miss_ok env hw st fn ty v₀ n₀ cbf] at h
      obtain ⟨h1, h2, h3, h4⟩ := StageOut.mk.inj h
      obtain hv := Except.ok.inj h1
      subst hv
      exact Or.inr ⟨h2.symm, hhit, by rw [h3]⟩

/-! ### Non-emptiness of the validated generation results -/

theorem jsTrim_mk_ne (c : Char) (l : List Char) (hc : isJsWs c = false) :
    jsTrim (String.mk (c :: l)) ≠ "" := by
  simp only [jsTrim]
  intro h
  have hx : (((c :: l).dropWhile isJsWs).reverse.dropWhile isJsWs).reverse = [] := by
    have := congrArg String.data h
    simpa using this
  rw [List.dropWhile_cons, hc] at hx
  simp only [Bool.false_eq_true, if_false, List.reverse_eq_nil_iff,
    List.dropWhile_eq_nil_iff] at hx
  have hcmem : c ∈ (c :: l).reverse := by simp
  have := hx c hcmem
  rw [hc] at this
  exact Bool.false_ne_true this

theorem extract_inner_trim_ne (s inner : String) (h : extractMermaid s = some inner)
    (hne : inner ≠ "") : jsTrim inner ≠ "" := by
  rw [extractMermaid] at h
  rcases hp : firstSub "```mermaid".data s.data with _ | p
  · rw [hp] at h; exact absurd h (by simp)
  rw [hp] at h
  simp only at h
  rcases hq : firstSub "```".data ((s.data.drop (p + 10)).dropWhile isJsWs) with _ | q
  · rw [hq] at h; exact absurd h (by simp)
  rw [hq] at h
  simp only [Option.some.injEq] at h
  subst h
  rcases hu : (s.data.drop (p + 10)).dropWhile isJsWs with _ | ⟨c, tl⟩
  · exfalso
    apply hne
    rw [hu]
    simp
  · have hlen : 0 < ((s.data.drop (p + 10)).dropWhile isJsWs).length := by
      rw [hu]; simp
    have hcnot := List.dropWhile_get_zero_not isJsWs (s.data.drop (p + 10)) hlen
    have hc : isJsWs c = false := by
      have : ((s.data.drop (p + 10)).dropWhile isJsWs).get ⟨0, hlen⟩ = c := by
        simp [hu]
      rw [this] at hcnot
      exact Bool.not_eq_true _ ▸ by simpa using hcnot
    cases q with
    | zero =>
      exfalso
      apply hne
      rw [hu]
      simp
    | succ q' =>
      simpa using jsTrim_mk_ne c (tl.take q') hc

theorem charRel_ok_ne (o : Oracle) (ab : Bool) (chs : List Chapter) (v : String) (n : Nat)
    (h : AIService.generateCharacterRelationship o ab chs = (.ok v, n)) : v ≠ "" := by
  cases ab
  · rcases ho : o.charRel (AIService.chapterSummariesStr chs) with e | r
    · simp [AIService.generateCharacterRelationship, generateContent, ho] at h
    · by_cases he : jsTrim r.content = ""
      · simp [AIService.generateCharacterRelationship, generateContent, ho, he] at h
      · rcases hm : extractMermaid r.content with _ | inner
        · have hv : AIService.generateCharacterRelationship o false chs =
              (.ok (jsTrim r.content), 1) := by
            simp [AIService.generateCharacterRelationship, generateContent, ho, he, hm]
          rw [hv] at h
          simp only [Prod.mk.injEq, Except.ok.injEq] at h
          rw [← h.1]
          exact he
        · by_cases hi : inner = ""
          · have hv : AIService.generateCharacterRelationship o false chs =
                (.ok (jsTrim r.content), 1) := by
              simp [AIService.generateCharacterRelationship, generateContent, ho, he, hm, hi]
            rw [hv] at h
            simp only [Prod.mk.injEq, Except.ok.injEq] at h
            rw [← h.1]
            exact he
          · have hv : AIService.generateCharacterRelationship o false chs =
                (.ok (jsTrim inner), 1) := by
              simp [AIService.generateCharacterRelationship, generateContent, ho, he, hm, hi]
            rw [hv] at h
            simp only [Prod.mk.injEq, Except.ok.injEq] at h
            rw [← h.1]
            exact extract_inner_trim_ne r.content inner hm hi
  · simp [AIService.generateCharacterRelationship, generateContent] at h

theorem connections_ok_ne (o : Oracle) (ab : Bool) (chs : List Chapter) (stream : Bool)
    (v : String) (n : Nat)
    (h : AIService.analyzeConnections o ab chs stream = (.ok v, n)) : v ≠ "" := by
  cases ab
  · rcases ho : o.connections (AIService.chapterSummariesStr chs) with e | r
    · cases stream
      · simp [AIService.analyzeConnections, generateContent, ho] at h
      · simp only [AIService.analyzeConnections, generateContentStream, ho] at h
        by_cases hb : e.name = "AbortError" <;> simp [hb] at h
    · by_cases he : jsTrim r.content = ""
      · cases stream <;>
          simp [AIService.analyzeConnections, generateContent, generateContentStream,
            ho, he] at h
      · cases stream <;>
          · simp [AIService.analyzeConnections, generateContent,
              generateContentStream, ho, he] at h
            rcases h with ⟨h1, -⟩
            rw [← h1]
            exact he
  · cases stream <;>
      simp [AIService.analyzeConnections, generateContent, generateContentStream] at h

theorem overall_ok_ne (o : Oracle) (ab : Bool) (bt : String) (chs : List Chapter)
    (stream : Bool) (v : String) (n : Nat)
    (h : AIService.generateOverallSummary o ab bt chs stream = (.ok v, n)) : v ≠ "" := by
  cases ab
  · rcases ho : o.overall bt (String.intercalate "\n" (AIService.chapterInfoLines 0 chs))
        with e | r
    · cases stream
      · simp [AIService.generateOverallSummary, generateContent, ho] at h
      · simp only [AIService.generateOverallSummary, generateContentStream, ho] at h
        by_cases hb : e.name = "AbortError" <;> simp [hb] at h
    · by_cases he : jsTrim r.content = ""
      · cases stream <;>
          simp [AIService.generateOverallSummary, generateContent, generateContentStream,
            ho, he] at h
      · cases stream <;>
          · simp [AIService.generateOverallSummary, generateContent,
              generateContentStream, ho, he] at h
            rcases h with ⟨h1, -⟩
            rw [← h1]
            exact he
  · cases stream <;>
      simp [AIService.generateOverallSummary, generateContent, generateContentStream] at h

/-! ### Lemmas on the mind-map stages -/

theorem getMindMap_miss (env : Env) (hr : env.readFails = false) (st : Store)
    (fn : String) (ty : CacheKeyType) (cid : Option String)
    (hmiss : ¬ mindHitAt st (CacheService.generateKey fn ty cid)) :
    CacheService.getMindMap env st fn ty cid = .ok none := by
  rw [getMindMap_read env hr]
  rcases hl : lookup st (CacheService.generateKey fn ty cid) with _ | v
  · rfl
  · cases v with
    | mind m =>
      by_cases hp : m.nodeData.present = true
      · exact absurd ⟨m, hl, hp⟩ hmiss
      · simp [hp]
    | str s => rfl
    | strList l => rfl
    | strMap l => rfl
    | boolVal b => rfl

theorem getMindMap_hit (env : Env) (hr : env.readFails = false) (st : Store)
    (fn : String) (ty : CacheKeyType) (cid : Option String) (m : MEVal)
    (hl : lookup st (CacheService.generateKey fn ty cid) = some (.mind m))
    (hp : m.nodeData.present = true) :
    CacheService.getMindMap env st fn ty cid = .ok (some m) := by
  rw [getMindMap_read env hr, hl]
  simp [hp]

theorem genCMM_abort (o : Oracle) (c : String) :
    AIService.generateChapterMindMap o true c =
      (.error (.err "章节思维导图生成失败: Request was aborted"), 0) := rfl

theorem genCMM_ok (o : Oracle) (c : String) (m : MEVal) (h : o.chapterMindMap c = .ok m) :
    AIService.generateChapterMindMap o false c = (.ok m, 1) := by
  simp [AIService.generateChapterMindMap, h]

theorem genCMM_err (o : Oracle) (c : String) (e : JsErr) (h : o.chapterMindMap c = .error e) :
    AIService.generateChapterMindMap o false c =
      (.error (.err ("章节思维导图生成失败: " ++ e.message)), 1) := by
  simp [AIService.generateChapterMindMap, h]

theorem pmg_hit (env : Env) (hr : env.readFails = false) (o : Oracle) (ab : Bool)
    (st : Store) (g : TempChapterGroup) (fn : String) (m : MEVal)
    (hs : lookup st (mmKey fn g) = some (.mind m)) (hp : m.nodeData.present = true) :
    BookProcessingService.processMindMapGroup env o ab st g fn =
      (if m.nodeData.truthy then
        ⟨.ok (BookProcessingService.mkMindGroup g m,
              BookProcessingService.mkMindChapters g m), st, 0, []⟩
       else ⟨.error (.err "生成思维导图失败"), st, 0, []⟩) := by
  rw [BookProcessingService.processMindMapGroup,
    getMindMap_hit env hr st fn .mindmap (some g.groupId) m (by rw [mmKey] at hs; exact hs) hp]

theorem pmg_miss_abort (env : Env) (hr : env.readFails = false) (o : Oracle)
    (st : Store) (g : TempChapterGroup) (fn : String)
    (hmiss : ¬ mindHitAt st (mmKey fn g)) :
    BookProcessingService.processMindMapGroup env o true st g fn =
      ⟨.error (.err "章节思维导图生成失败: Request was aborted"), st, 0, []⟩ := by
  rw [BookProcessingService.processMindMapGroup,
    getMindMap_miss env hr st fn .mindmap (some g.groupId) (by rw [mmKey] at hmiss; exact hmiss),
    genCMM_abort]

theorem pmg_miss_err (env : Env) (hr : env.readFails = false) (o : Oracle)
    (st : Store) (g : TempChapterGroup) (fn : String) (e : JsErr)
    (hmiss : ¬ mindHitAt st (mmKey fn g))
    (ho : o.chapterMindMap (BookProcessingService.combinedContent g) = .error e) :
    BookProcessingService.processMindMapGroup env o false st g fn =
      ⟨.error (.err ("章节思维导图生成失败: " ++ e.message)), st, 1, []⟩ := by
  rw [BookProcessingService.processMindMapGroup,
    getMindMap_miss env hr st fn .mindmap (some g.groupId) (by rw [mmKey] at hmiss; exact hmiss),
    genCMM_err o _ e ho]

theorem pmg_miss_ok (env : Env) (hr : env.readFails = false) (hw : env.writeFails = false)
    (o : Oracle) (st : Store) (g : TempChapterGroup) (fn : String) (m : MEVal)
    (hmiss : ¬ mindHitAt st (mmKey fn g))
    (ho : o.chapterMindMap (BookProcessingService.combinedContent g) = .ok m) :
    BookProcessingService.processMindMapGroup env o false st g fn =
      (if m.nodeData.truthy then
        ⟨.ok (BookProcessingService.mkMindGroup g m,
              BookProcessingService.mkMindChapters g m),
         setItem st (mmKey fn g) (.mind m), 1, []⟩
       else ⟨.error (.err "生成思维导图失败"),
         setItem st (mmKey fn g) (.mind m), 1, []⟩) := by
  rw [BookProcessingService.processMindMapGroup,
    getMindMap_miss env hr st fn .mindmap (some g.groupId) (by rw [mmKey] at hmiss; exact hmiss),
    genCMM_ok o _ m ho]
  simp [CacheService.setCache, CacheService.setItemE, hw, mmKey]

theorem pmg_success (env : Env) (hr : env.readFails = false) (hw : env.writeFails = false)
    (o : Oracle) (ab : Bool) (st : Store) (g : TempChapterGroup) (fn : String)
    (pg : ChapterGroup) (pcs : List Chapter) (st' : Store) (n : Nat) (cb : List CbSummary)
    (h : BookProcessingService.processMindMapGroup env o ab st g fn =
      ⟨.ok (pg, pcs), st', n, cb⟩) :
    ∃ m, pg = BookProcessingService.mkMindGroup g m ∧
      pcs = BookProcessingService.mkMindChapters g m ∧ m.nodeData.truthy = true ∧
      ((st' = st ∧ lookup st (mmKey fn g) = some (.mind m) ∧ n = 0)
       ∨ (st' = setItem st (mmKey fn g) (.mind m) ∧ ¬ mindHitAt st (mmKey fn g) ∧ n = 1)) := by
  by_cases hhit : mindHitAt st (mmKey fn g)
  · obtain ⟨m, hs, hp⟩ := hhit
    rw [pmg_hit env hr o ab st g fn m hs hp] at h
    by_cases ht : m.nodeData.truthy = true
    · rw [if_pos ht] at h
      obtain ⟨h1, h2, h3, h4⟩ := StageOut.mk.inj h
      obtain ⟨hg, hc⟩ := Prod.mk.inj (Except.ok.inj h1)
      exact ⟨m, hg.symm, hc.symm, ht, Or.inl ⟨h2.symm, hs, h3.symm⟩⟩
    · rw [if_neg ht] at h
      exact absurd (StageOut.mk.inj h).1 (by simp)
  · cases ab with
    | true =>
      rw [pmg_miss_abort env hr o st g fn hhit] at h
      exact absurd (StageOut.mk.inj h).1 (by simp)
    | false =>
      cases ho : o.chapterMindMap (BookProcessingService.combinedContent g) with
      | error e =>
        rw [pmg_miss_err env hr o st g fn e hhit ho] at h
        exact absurd (StageOut.mk.inj h).1 (by simp)
      | ok m =>
        rw [pmg_miss_ok env hr hw o st g fn m hhit ho] at h
        by_cases ht : m.nodeData.truthy = true
        · rw [if_pos ht] at h
          obtain ⟨h1, h2, h3, h4⟩ := StageOut.mk.inj h
          obtain ⟨hg, hc⟩ := Prod.mk.inj (Except.ok.inj h1)
          exact ⟨m, hg.symm, hc.symm, ht, Or.inr ⟨h2.symm, hhit, h3.symm⟩⟩
        · rw [if_neg ht] at h
          exact absurd (StageOut.mk.inj h).1 (by simp)

/-! ### Lemmas on merge and the whole-book map -/

theorem merge_hit (env : Env) (hr : env.readFails = false) (st : Store)
    (fn bt : String) (chs : List Chapter) (m : MEVal)
    (hs : lookup st (bookKey fn .merged_mindmap) = some (.mind m))
    (hp : m.nodeData.present = true) :
    BookProcessingService.mergeMindMaps env st fn bt chs = ⟨.ok m, st, 0, []⟩ := by
  rw [BookProcessingService.mergeMindMaps,
    getMindMap_hit env hr st fn .merged_mindmap none m (by rw [bookKey] at hs; exact hs) hp]

theorem merge_miss (env : Env) (hr : env.readFails = false) (hw : env.writeFails = false)
    (st : Store) (fn bt : String) (chs : List Chapter)
    (hmiss : ¬ mindHitAt st (bookKey fn .merged_mindmap)) :
    BookProcessingService.mergeMindMaps env st fn bt chs =
      ⟨.ok (BookProcessingService.mergedVal bt chs),
       setItem st (bookKey fn .merged_mindmap)
         (.mind (BookProcessingService.mergedVal bt chs)), 0, []⟩ := by
  rw [BookProcessingService.mergeMindMaps,
    getMindMap_miss env hr st fn .merged_mindmap none (by rw [bookKey] at hmiss; exact hmiss)]
  simp [CacheService.setCache, CacheService.setItemE, hw, bookKey]

theorem merge_success (env : Env) (hr : env.readFails = false) (hw : env.writeFails = false)
    (st : Store) (fn bt : String) (chs : List Chapter) (m : MEVal) (st' : Store)
    (n : Nat) (cb : List CbSummary)
    (h : BookProcessingService.mergeMindMaps env st fn bt chs = ⟨.ok m, st', n, cb⟩) :
    (st' = st ∧ lookup st (bookKey fn .merged_mindmap) = some (.mind m) ∧
      m.nodeData.present = true ∧ n = 0) ∨
    (st' = setItem st (bookKey fn .merged_mindmap) (.mind m) ∧
      m = BookProcessingService.mergedVal bt chs ∧
      ¬ mindHitAt st (bookKey fn .merged_mindmap) ∧ n = 0) := by
  by_cases hhit : mindHitAt st (bookKey fn .merged_mindmap)
  · obtain ⟨m₀, hs, hp⟩ := hhit
    rw [merge_hit env hr st fn bt chs m₀ hs hp] at h
    obtain ⟨h1, h2, h3, h4⟩ := StageOut.mk.inj h
    obtain hm := Except.ok.inj h1
    subst hm
    exact Or.inl ⟨h2.symm, hs, hp, h3.symm⟩
  · rw [merge_miss env hr hw st fn bt chs hhit] at h
    obtain ⟨h1, h2, h3, h4⟩ := StageOut.mk.inj h
    obtain hm := Except.ok.inj h1
    subst hm
    exact Or.inr ⟨h2.symm, rfl, hhit, h3.symm⟩

theorem combined_hit (env : Env) (hr : env.readFails = false) (o : Oracle) (ab : Bool)
    (st : Store) (fn bt : String) (chs : List Chapter) (m : MEVal)
    (hs : lookup st (bookKey fn .combined_mindmap) = some (.mind m))
    (hp : m.nodeData.present = true) :
    BookProcessingService.generateCombinedMindMapStage env o ab st fn bt chs =
      ⟨.ok m, st, 0, []⟩ := by
  rw [BookProcessingService.generateCombinedMindMapStage,
    getMindMap_hit env hr st fn .combined_mindmap none m (by rw [bookKey] at hs; exact hs) hp]

theorem genCombined_ok (o : Oracle) (bt : String) (chs : List Chapter) (m : MEVal)
    (h : o.combinedMindMap bt
      (String.intercalate "\n\n ------------- \n\n" (chs.map (·.content))) = .ok m) :
    AIService.generateCombinedMindMap o false bt chs = (.ok m, 1) := by
  simp [AIService.generateCombinedMindMap, h]

theorem combined_miss_ok (env : Env) (hr : env.readFails = false)
    (hw : env.writeFails = false) (o : Oracle) (st : Store) (fn bt : String)
    (chs : List Chapter) (m : MEVal)
    (hmiss : ¬ mindHitAt st (bookKey fn .combined_mindmap))
    (ho : o.combinedMindMap bt
      (String.intercalate "\n\n ------------- \n\n" (chs.map (·.content))) = .ok m) :
    BookProcessingService.generateCombinedMindMapStage env o false st fn bt chs =
      ⟨.ok m, setItem st (bookKey fn .combined_mindmap) (.mind m), 1, []⟩ := by
  rw [BookProcessingService.generateCombinedMindMapStage,
    getMindMap_miss env hr st fn .combined_mindmap none (by rw [bookKey] at hmiss; exact hmiss),
    genCombined_ok o bt chs m ho]
  simp [CacheService.setCache, CacheService.setItemE, hw, bookKey]

/-! ### Concrete fixtures used by witnesses and counterexamples -/

/-- A one-chapter untagged group. -/
def gW : TempChapterGroup := ⟨none, [⟨"c1", "T1", "X1"⟩], "T1"⟩

/-- A mind map with a root node. -/
def meRoot : MEVal := ⟨.root (.node "R" "0" [] []), [], []⟩

/-- A parsed mind-map payload with no `nodeData` property. -/
def meNoRoot : MEVal := ⟨.missing, [], []⟩

/-- A transport that answers every stage successfully. -/
def oW : Oracle :=
  ⟨fun _ _ => .ok ⟨"S", "R"⟩, fun _ => .ok ⟨"C", ""⟩, fun _ _ => .ok ⟨"O", ""⟩,
   fun _ => .ok ⟨"REL", ""⟩, fun _ => .ok meRoot, fun _ _ => .ok meRoot⟩

/-- A transport whose chapter-mind-map endpoint yields a rootless payload
and whose summary endpoint yields empty text. -/
def oBad : Oracle := { oW with summarize := fun _ _ => .ok ⟨"", ""⟩,
                               chapterMindMap := fun _ => .ok meNoRoot }

/-- A transport aborted mid-flight on the summary endpoint. -/
def oAbortMid : Oracle := { oW with summarize := fun _ _ => .error (.abort "Request was aborted") }

/-- The summary-stage store fixture: a cached summary for `gW`. -/
def stW : Store := [(psgKey "b" gW, .str "S")]

/-- Store fixture with a cached summary and cached connections. -/
def stW5 : Store := [(psgKey "b" gW, .str "S"), (bookKey "b" .connections, .str "C")]

/-! ### Claim 9 -/

/-- Claim C9: for every group whose summary is cached, processSummaryGroup
returns the group and all member chapters with `reasoning` undefined and the
replayed stream callback receives only the summary; and on every successful
run only the summary text is written under the stage key (the reasoning is
never cached), so it is absent from every cache-hit result. -/
theorem claim9_reasoning_lost (o : Oracle) (ab : Bool) (st : Store) (g : TempChapterGroup)
    (fn s : String) (hs : lookup st (psgKey fn g) = some (.str s)) (hne : s ≠ "") :
    BookProcessingService.processSummaryGroup noFault o ab st g fn true =
      ⟨.ok (BookProcessingService.mkSummaryGroup g s "",
            BookProcessingService.mkSummaryChapters g s ""), st, 0, [⟨s, none⟩]⟩ ∧
    (BookProcessingService.mkSummaryGroup g s "").reasoning = none ∧
    (∀ ch ∈ BookProcessingService.mkSummaryChapters g s "", ch.reasoning = none) ∧
    (∀ (st₀ st' : Store) (pg : ChapterGroup) (pcs : List Chapter) (n : Nat)
        (cb : List CbSummary),
      BookProcessingService.processSummaryGroup noFault o false st₀ g fn true =
        ⟨.ok (pg, pcs), st', n, cb⟩ →
      ∃ s', pg.summary = some s' ∧ lookup st' (psgKey fn g) = some (.str s') ∧
        ∀ k, k ≠ psgKey fn g → lookup st' k = lookup st₀ k) := by
  refine ⟨psg_hit noFault rfl o ab st g fn true s hs hne, rfl, ?_, ?_⟩
  · intro ch hch
    simp only [BookProcessingService.mkSummaryChapters, List.mem_map] at hch
    obtain ⟨cd, _, hcd⟩ := hch
    rw [← hcd]
    rfl
  · intro st₀ st' pg pcs n cb h
    obtain ⟨s', r', hpg, _, _, hcase⟩ :=
      psg_success noFault rfl rfl o false st₀ g fn true pg pcs st' n cb h
    refine ⟨s', by rw [hpg]; rfl, ?_, ?_⟩
    · rcases hcase with ⟨hst, hlk, -, -⟩ | ⟨hst, -, -⟩
      · rw [hst]; exact hlk
      · rw [hst]; exact lookup_setItem_self st₀ (psgKey fn g) (.str s')
    · intro k hk
      rcases hcase with ⟨hst, -, -, -⟩ | ⟨hst, -, -⟩
      · rw [hst]
      · rw [hst]; exact lookup_setItem_ne st₀ (psgKey fn g) k (.str s') hk

/-- Witness for C9 at a concrete cached store. -/
theorem claim9_witness :
    (lookup stW (psgKey "b" gW) = some (.str "S")) ∧ ("S" ≠ "") ∧
    (BookProcessingService.processSummaryGroup noFault oW false stW gW "b" true =
      ⟨.ok (BookProcessingService.mkSummaryGroup gW "S" "",
            BookProcessingService.mkSummaryChapters gW "S" ""), stW, 0, [⟨"S", none⟩]⟩) :=
  ⟨rfl, by decide, (claim9_reasoning_lost oW false stW gW "b" "S" rfl (by decide)).1⟩

/-! ### Claim 5 -/

/-- Claim C5: whenever a stage finds a cached value of the expected shape
(per the spec, a non-empty text) under its key, the external compute
function is never invoked (zero transport calls, store unchanged) and the
supplied stream callback is invoked exactly once with the full cached value
(shown for the per-group summary stage and the connections stage). -/
theorem claim5_cache_hit_replay (o : Oracle) (ab : Bool) (st : Store)
    (g : TempChapterGroup) (fn : String) (chs : List Chapter) (s t : String)
    (hs : lookup st (psgKey fn g) = some (.str s)) (hne : s ≠ "")
    (ht : lookup st (bookKey fn .connections) = some (.str t)) (htne : t ≠ "") :
    (BookProcessingService.processSummaryGroup noFault o ab st g fn true).calls = 0 ∧
    (BookProcessingService.processSummaryGroup noFault o ab st g fn true).cb = [⟨s, none⟩] ∧
    (BookProcessingService.processSummaryGroup noFault o ab st g fn true).res =
      .ok (BookProcessingService.mkSummaryGroup g s "",
           BookProcessingService.mkSummaryChapters g s "") ∧
    (BookProcessingService.processSummaryGroup noFault o ab st g fn true).store = st ∧
    (BookProcessingService.generateConnections noFault o ab st fn chs true).calls = 0 ∧
    (BookProcessingService.generateConnections noFault o ab st fn chs true).cb = [t] ∧
    (BookProcessingService.generateConnections noFault o ab st fn chs true).res = .ok t ∧
    (BookProcessingService.generateConnections noFault o ab st fn chs true).store = st := by
  have h1 := psg_hit noFault rfl o ab st g fn true s hs hne
  have h2 := sstage_hit noFault rfl st fn .connections
    (AIService.analyzeConnections o ab chs true) true t ht htne
  rw [BookProcessingService.generateConnections]
  rw [h1, h2]
  exact ⟨rfl, rfl, rfl, rfl, rfl, rfl, rfl, rfl⟩

/-- Witness for C5 at a concrete cached store. -/
theorem claim5_witness :
    (lookup stW5 (psgKey "b" gW) = some (.str "S")) ∧ ("S" ≠ "") ∧
    (lookup stW5 (bookKey "b" .connections) = some (.str "C")) ∧ ("C" ≠ "") ∧
    ((BookProcessingService.processSummaryGroup noFault oW false stW5 gW "b" true).calls = 0 ∧
     (BookProcessingService.processSummaryGroup noFault oW false stW5 gW "b" true).cb =
       [⟨"S", none⟩] ∧
     (BookProcessingService.processSummaryGroup noFault oW false stW5 gW "b" true).res =
       .ok (BookProcessingService.mkSummaryGroup gW "S" "",
            BookProcessingService.mkSummaryChapters gW "S" "") ∧
     (BookProcessingService.processSummaryGroup noFault oW false stW5 gW "b" true).store = stW5 ∧
     (BookProcessingService.generateConnections noFault oW false stW5 "b" [] true).calls = 0 ∧
     (BookProcessingService.generateConnections noFault oW false stW5 "b" [] true).cb = ["C"] ∧
     (BookProcessingService.generateConnections noFault oW false stW5 "b" [] true).res =
       .ok "C" ∧
     (BookProcessingService.generateConnections noFault oW false stW5 "b" [] true).store =
       stW5) :=
  ⟨rfl, by decide, rfl, by decide,
   claim5_cache_hit_replay oW false stW5 gW "b" [] "S" "C" rfl (by decide) rfl (by decide)⟩

/-! ### Claim 7 -/

/-- Counterexample to C7: with a rejecting read the summary stage raises the
store failure without recomputing (zero transport calls, no value), and with
a rejecting write the computed value is not returned — the store failure is
raised instead. The claim's degrade-to-recompute and non-fatal-write
behaviors do not hold. -/
theorem claim7_counterexample :
    (BookProcessingService.processSummaryGroup ⟨true, false, false⟩ oW false [] gW "b" true =
      ⟨.error (.store "getItem failed"), [], 0, []⟩) ∧
    ((BookProcessingService.processSummaryGroup ⟨false, true, false⟩ oW false [] gW "b" true).res =
      .error (.store "setItem failed")) ∧
    ((BookProcessingService.processSummaryGroup ⟨false, true, false⟩ oW false [] gW "b" true).calls
      = 1) :=
  ⟨rfl, rfl, rfl⟩

/-- Claim C7 (amended): when the persistence layer fails, a failing read
propagates the store failure — the stage performs no recomputation and
returns no value — and a failing write propagates the store failure after
the compute: the computed value is not returned to the caller. -/
theorem claim7_store_failures (env₂ : Env) (o : Oracle) (ab : Bool) (st : Store)
    (g : TempChapterGroup) (fn : String) (cbf : Bool) (raw : GenResult)
    (h2r : env₂.readFails = false) (h2w : env₂.writeFails = true)
    (hmiss : ¬ strHitAt st (psgKey fn g))
    (ho : o.summarize (BookProcessingService.combinedTitle g)
            (BookProcessingService.combinedContent g) = .ok raw)
    (hne : jsTrim raw.content ≠ "") :
    (∀ env : Env, env.readFails = true →
      BookProcessingService.processSummaryGroup env o ab st g fn cbf =
        ⟨.error (.store "getItem failed"), st, 0, []⟩) ∧
    (BookProcessingService.processSummaryGroup env₂ o false st g fn cbf =
      ⟨.error (.store "setItem failed"), st, 1,
       if cbf then [⟨jsTrim raw.content, some (jsTrim raw.reasoning)⟩] else []⟩) := by
  constructor
  · intro env hre
    exact psg_read_fail env hre o ab st g fn cbf
  · rw [psg_not_hit_miss env₂ h2r o false st g fn cbf hmiss,
      BookProcessingService.processSummaryMiss, summarize_ok_spec o _ _ cbf raw ho hne]
    simp [CacheService.setCache, CacheService.setItemE, h2w]

/-- Witness for the amended C7 at concrete inputs. -/
theorem claim7_witness :
    ((⟨false, true, false⟩ : Env).readFails = false) ∧
    ((⟨false, true, false⟩ : Env).writeFails = true) ∧
    (¬ strHitAt [] (psgKey "b" gW)) ∧
    (oW.summarize (BookProcessingService.combinedTitle gW)
       (BookProcessingService.combinedContent gW) = .ok ⟨"S", "R"⟩) ∧
    (jsTrim "S" ≠ "") ∧
    ((∀ env : Env, env.readFails = true →
      BookProcessingService.processSummaryGroup env oW false [] gW "b" true =
        ⟨.error (.store "getItem failed"), [], 0, []⟩) ∧
     (BookProcessingService.processSummaryGroup ⟨false, true, false⟩ oW false [] gW "b" true =
      ⟨.error (.store "setItem failed"), [], 1,
       if true then [⟨jsTrim "S", some (jsTrim "R")⟩] else []⟩)) :=
  ⟨rfl, rfl, by rintro ⟨s, hs, -⟩; simp [lookup] at hs, rfl, by decide,
   claim7_store_failures ⟨false, true, false⟩ oW false [] gW "b" true ⟨"S", "R"⟩ rfl rfl
     (by rintro ⟨s, hs, -⟩; simp [lookup] at hs) rfl (by decide)⟩

/-! ### Claim 3 -/

/-- Counterexample to C3: with the abort signal observed before the call,
the summary stage raises an error whose `name` is `"Error"`, not
`"AbortError"` — the generation service's catch-all rewrapped the
DOMException — so the stage does not raise an AbortError (the no-cache-write
part does hold: the store is unchanged). -/
theorem claim3_counterexample :
    (BookProcessingService.processSummaryGroup noFault oW true [] gW "b" true =
      ⟨.error (.err "Request was aborted"), [], 0, []⟩) ∧
    (JsErr.err "Request was aborted").name ≠ "AbortError" :=
  ⟨rfl, by decide⟩

/-- Claim C3 (amended): if the abort signal is observed before or during the
generation call of a summary stage whose key is not cached, the stage raises
an error carrying the abort message — rewrapped as a plain `Error`, not an
AbortError — and performs no cache write: the store is unchanged, so a get
for that key still misses, and a retry with a working transport re-executes
the stage from scratch (one transport call, full compute-and-persist). -/
theorem claim3_abort_leaves_no_trace (env : Env) (o o₂ : Oracle) (st : Store)
    (g : TempChapterGroup) (fn : String) (cbf : Bool) (m : String) (raw : GenResult)
    (hr : env.readFails = false) (hw : env.writeFails = false)
    (hmiss : ¬ strHitAt st (psgKey fn g))
    (hab : o.summarize (BookProcessingService.combinedTitle g)
             (BookProcessingService.combinedContent g) = .error (.abort m))
    (hra : o₂.summarize (BookProcessingService.combinedTitle g)
             (BookProcessingService.combinedContent g) = .ok raw)
    (hne : jsTrim raw.content ≠ "") :
    (BookProcessingService.processSummaryGroup env o true st g fn cbf =
      ⟨.error (.err "Request was aborted"), st, 0, []⟩) ∧
    ((JsErr.err "Request was aborted").name = "Error") ∧
    (BookProcessingService.processSummaryGroup env o false st g fn cbf =
      ⟨.error (.err m), st, 1, []⟩) ∧
    (BookProcessingService.processSummaryGroup env o₂ false st g fn cbf =
      ⟨.ok (BookProcessingService.mkSummaryGroup g (jsTrim raw.content) (jsTrim raw.reasoning),
            BookProcessingService.mkSummaryChapters g (jsTrim raw.content)
              (jsTrim raw.reasoning)),
       setItem st (psgKey fn g) (.str (jsTrim raw.content)), 1,
       if cbf then [⟨jsTrim raw.content, some (jsTrim raw.reasoning)⟩] else []⟩) := by
  refine ⟨psg_miss_abort env hr o st g fn cbf hmiss, rfl, ?_,
    psg_miss_ok env hr hw o₂ st g fn cbf raw hmiss hra hne⟩
  rw [psg_not_hit_miss env hr o false st g fn cbf hmiss,
    BookProcessingService.processSummaryMiss, summarize_transport_abort o _ _ m cbf hab]

/-- Witness for the amended C3 at concrete inputs. -/
theorem claim3_witness :
    (noFault.readFails = false) ∧ (noFault.writeFails = false) ∧
    (¬ strHitAt [] (psgKey "b" gW)) ∧
    (oAbortMid.summarize (BookProcessingService.combinedTitle gW)
       (BookProcessingService.combinedContent gW) = .error (.abort "Request was aborted")) ∧
    (oW.summarize (BookProcessingService.combinedTitle gW)
       (BookProcessingService.combinedContent gW) = .ok ⟨"S", "R"⟩) ∧
    (jsTrim "S" ≠ "") ∧
    ((BookProcessingService.processSummaryGroup noFault oAbortMid true [] gW "b" true =
       ⟨.error (.err "Request was aborted"), [], 0, []⟩) ∧
     ((JsErr.err "Request was aborted").name = "Error") ∧
     (BookProcessingService.processSummaryGroup noFault oAbortMid false [] gW "b" true =
       ⟨.error (.err "Request was aborted"), [], 1, []⟩) ∧
     (BookProcessingService.processSummaryGroup noFault oW false [] gW "b" true =
       ⟨.ok (BookProcessingService.mkSummaryGroup gW (jsTrim "S") (jsTrim "R"),
             BookProcessingService.mkSummaryChapters gW (jsTrim "S") (jsTrim "R")),
        setItem [] (psgKey "b" gW) (.str (jsTrim "S")), 1,
        if true then [⟨jsTrim "S", some (jsTrim "R")⟩] else []⟩)) :=
  ⟨rfl, rfl, by rintro ⟨s, hs, -⟩; simp [lookup] at hs, rfl, rfl, by decide,
   claim3_abort_leaves_no_trace noFault oAbortMid oW [] gW "b" true "Request was aborted"
     ⟨"S", "R"⟩ rfl rfl (by rintro ⟨s, hs, -⟩; simp [lookup] at hs) rfl rfl (by decide)⟩

/-! ### Claim 4 -/

/-- Counterexample to C4: a structured mind-map payload missing its root
node is raised as a generation failure, but only after the payload has been
written to the store — the stage's key is present afterwards, so "no key is
written" is false. -/
theorem claim4_counterexample :
    ((BookProcessingService.processMindMapGroup noFault oBad false [] gW "b").res =
      .error (.err "生成思维导图失败")) ∧
    (lookup (BookProcessingService.processMindMapGroup noFault oBad false [] gW "b").store
      (mmKey "b" gW) = some (.mind meNoRoot)) :=
  ⟨rfl, rfl⟩

/-- Claim C4 (amended): an empty text result is raised as a generation
failure before any persistence — no key is written and a later get still
misses — but a structured mind-map payload missing its root node is
persisted first and only then raised as a generation failure: the stage key
afterwards holds the malformed payload. -/
theorem claim4_validation_order (env : Env) (o : Oracle) (st : Store)
    (g : TempChapterGroup) (fn : String) (cbf : Bool) (raw : GenResult) (m : MEVal)
    (hr : env.readFails = false) (hw : env.writeFails = false) :
    (¬ strHitAt st (psgKey fn g) →
      o.summarize (BookProcessingService.combinedTitle g)
        (BookProcessingService.combinedContent g) = .ok raw →
      jsTrim raw.content = "" →
      BookProcessingService.processSummaryGroup env o false st g fn cbf =
        ⟨.error (.err "AI返回了空的总结"), st, 1, []⟩) ∧
    (¬ mindHitAt st (mmKey fn g) →
      o.chapterMindMap (BookProcessingService.combinedContent g) = .ok m →
      m.nodeData.truthy = false →
      BookProcessingService.processMindMapGroup env o false st g fn =
        ⟨.error (.err "生成思维导图失败"), setItem st (mmKey fn g) (.mind m), 1, []⟩) := by
  constructor
  · intro hmiss ho he
    exact psg_miss_empty env hr o st g fn cbf raw hmiss ho he
  · intro hmiss ho ht
    rw [pmg_miss_ok env hr hw o st g fn m hmiss ho, if_neg (by rw [ht]; exact Bool.false_ne_true)]

/-- Witness for the amended C4 at concrete inputs. -/
theorem claim4_witness :
    (noFault.readFails = false) ∧ (noFault.writeFails = false) ∧
    (¬ strHitAt [] (psgKey "b" gW)) ∧
    (oBad.summarize (BookProcessingService.combinedTitle gW)
       (BookProcessingService.combinedContent gW) = .ok ⟨"", ""⟩) ∧
    (jsTrim "" = "") ∧
    (¬ mindHitAt [] (mmKey "b" gW)) ∧
    (oBad.chapterMindMap (BookProcessingService.combinedContent gW) = .ok meNoRoot) ∧
    (meNoRoot.nodeData.truthy = false) ∧
    ((BookProcessingService.processSummaryGroup noFault oBad false [] gW "b" true =
       ⟨.error (.err "AI返回了空的总结"), [], 1, []⟩) ∧
     (BookProcessingService.processMindMapGroup noFault oBad false [] gW "b" =
       ⟨.error (.err "生成思维导图失败"), setItem [] (mmKey "b" gW) (.mind meNoRoot), 1, []⟩)) :=
  ⟨rfl, rfl, by rintro ⟨s, hs, -⟩; simp [lookup] at hs, rfl, rfl,
   by rintro ⟨m, hm, -⟩; simp [lookup] at hm, rfl, rfl,
   by
    have h := claim4_validation_order noFault oBad [] gW "b" true ⟨"", ""⟩ meNoRoot rfl rfl
    exact ⟨h.1 (by rintro ⟨s, hs, -⟩; simp [lookup] at hs) rfl rfl,
           h.2 (by rintro ⟨m, hm, -⟩; simp [lookup] at hm) rfl rfl⟩⟩

/-! ### Substring-occurrence machinery for the key round-trip -/

theorem subAt_getElem (pat l : List Char) (p : Nat) (h : subAt pat l p) :
    ∀ j, j < pat.length → l[p + j]? = pat[j]? := by
  intro j hj
  have h1 : pat[j]? = ((l.drop p).take pat.length)[j]? := by rw [h]
  rw [List.getElem?_take_of_lt hj, List.getElem?_drop] at h1
  exact h1.symm

theorem subAt_append_right' (pat X Y : List Char) (q : Nat) (hq : X.length ≤ q)
    (h : subAt pat (X ++ Y) q) : subAt pat Y (q - X.length) := by
  unfold subAt at h ⊢
  rwa [List.drop_append_eq_append_drop, List.drop_eq_nil_of_le hq, List.nil_append] at h

theorem subAt_append_left' (pat X Y : List Char) (q : Nat) (hq : q + pat.length ≤ X.length)
    (h : subAt pat (X ++ Y) q) : subAt pat X q := by
  unfold subAt at h ⊢
  rw [List.drop_append_eq_append_drop,
    List.take_append_of_le_length (by simp only [List.length_drop]; omega)] at h
  exact h

theorem subAt_within (pat X Y : List Char) (q : Nat) (h : subAt pat Y q) :
    subAt pat (X ++ Y) (X.length + q) := by
  unfold subAt at h ⊢
  rwa [List.drop_append]

theorem subCheck_false (pat l : List Char) (h : subCheck pat l = false) (hpat : pat ≠ [])
    (p : Nat) : ¬ subAt pat l p := by
  intro hsub
  rcases lt_or_ge p l.length with hlt | hge
  · have hany : (List.range l.length).any (fun q => decide (subAt pat l q)) = true :=
      List.any_eq_true.mpr ⟨p, List.mem_range.mpr hlt, by simpa using hsub⟩
    unfold subCheck at h
    rw [h] at hany
    exact Bool.false_ne_true hany
  · unfold subAt at hsub
    rw [List.drop_eq_nil_of_le hge, List.take_nil] at hsub
    exact hpat hsub.symm

theorem subAt_sep_chapter (l : List Char) (p : Nat) (h : subAt sepL l p) :
    subAt "chapter".data l (p + 1) := by
  have hsep : l.drop p = sepL ++ (l.drop p).drop 9 := by
    conv_lhs => rw [← List.take_append_drop 9 (l.drop p)]
    unfold subAt at h
    rw [show sepL.length = 9 from rfl] at h
    rw [h]
  unfold subAt
  have hd : l.drop (p + 1) = (l.drop p).drop 1 := by
    rw [List.drop_drop]
  rw [hd, hsep, List.drop_append_eq_append_drop,
    show sepL.drop 1 = "chapter_".data from rfl]
  simp only [show (1 : Nat) - sepL.length = 0 from rfl, List.drop_zero]
  rw [List.take_append_of_le_length (by decide)]
  rfl

theorem range_filter_getLast (pred : Nat → Bool) (n m : Nat) (hm : m < n)
    (hpm : pred m = true) (hub : ∀ k, pred k = true → k ≤ m) :
    ((List.range n).filter pred).getLast? = some m := by
  induction n with
  | zero => omega
  | succ n ih =>
    rw [List.range_succ, List.filter_append]
    by_cases hn : pred n = true
    · have h1 : n ≤ m := hub n hn
      have h2 : m = n := by omega
      subst h2
      rw [List.getLast?_append]
      simp [hn]
    · have hmn : m ≠ n := fun hx => hn (hx ▸ hpm)
      have hlt : m < n := by omega
      simp only [List.filter_cons, List.filter_nil, hn]
      simp only [Bool.false_eq_true, if_false]
      rw [List.append_nil]
      exact ih hlt

theorem lastSepPos_none_of (mid : List Char)
    (h : ∀ p, validSepPos mid p = true → False) : lastSepPos mid = none := by
  unfold lastSepPos
  have hf : (List.range mid.length).filter (validSepPos mid) = [] := by
    rw [List.filter_eq_nil_iff]
    intro a _
    intro hp
    exact h a hp
  rw [hf]
  rfl

theorem valid_le (B C : List Char) (hC : subCheck "chapter".data C = false) (k : Nat)
    (hk : validSepPos (B ++ sepL ++ C) k = true) : k ≤ B.length := by
  by_contra hgt
  push_neg at hgt
  simp only [validSepPos, Bool.and_eq_true, decide_eq_true_eq] at hk
  have hch : subAt "chapter".data ((B ++ sepL) ++ C) (k + 1) :=
    subAt_sep_chapter _ k hk.1.2
  have hX : (B ++ sepL).length = B.length + 9 := by
    rw [List.length_append]
    rfl
  rcases le_or_lt (B ++ sepL).length (k + 1) with hge | hlt
  · exact subCheck_false _ C hC (by decide) _ (subAt_append_right' _ _ C (k + 1) hge hch)
  · have hj : B.length + 8 - (k + 1) < 7 := by omega
    have hgot := subAt_getElem _ _ _ hch (B.length + 8 - (k + 1))
      (by rw [show ("chapter".data).length = 7 from rfl]; exact hj)
    have hidx : (k + 1) + (B.length + 8 - (k + 1)) = B.length + 8 := by omega
    rw [hidx] at hgot
    have h1 : ((B ++ sepL) ++ C)[B.length + 8]? = some '_' := by
      rw [List.getElem?_append_left (by omega), List.getElem?_append_right (by omega)]
      rw [show B.length + 8 - B.length = 8 from by omega]
      rfl
    rw [h1] at hgot
    exact absurd (List.getElem?_mem hgot.symm) (by decide)

theorem lastSepPos_chapter (B C : List Char) (hB : B ≠ []) (hC0 : C ≠ [])
    (hCc : subCheck "chapter".data C = false) :
    lastSepPos (B ++ sepL ++ C) = some B.length := by
  have hBlen : 0 < B.length := List.length_pos.mpr hB
  have hClen : 0 < C.length := List.length_pos.mpr hC0
  apply range_filter_getLast
  · simp only [List.length_append, show sepL.length = 9 from rfl]
    omega
  · simp only [validSepPos, Bool.and_eq_true, decide_eq_true_eq]
    refine ⟨⟨by omega, ?_⟩, ?_⟩
    · unfold subAt
      rw [List.append_assoc, List.drop_left]
      exact List.take_left _ _
    · simp only [List.length_append, show sepL.length = 9 from rfl]
      omega
  · intro k hk
    exact valid_le B C hCc k hk

theorem lastSepPos_none_tail (B tail : List Char) (hBc : subCheck "chapter".data B = false)
    (htc : subCheck "chapter".data tail = false) (hh : tail[0]? = some '_') :
    lastSepPos (B ++ tail) = none := by
  apply lastSepPos_none_of
  intro p hp
  simp only [validSepPos, Bool.and_eq_true, decide_eq_true_eq] at hp
  have hch : subAt "chapter".data (B ++ tail) (p + 1) := subAt_sep_chapter _ p hp.1.2
  rcases le_or_lt B.length (p + 1) with hge | hlt
  · exact subCheck_false _ tail htc (by decide) _ (subAt_append_right' _ B tail (p + 1) hge hch)
  · rcases le_or_lt (p + 1 + 7) B.length with hin | hspan
    · exact subCheck_false _ B hBc (by decide) _
        (subAt_append_left' _ B tail (p + 1)
          (by rw [show ("chapter".data).length = 7 from rfl]; omega) hch)
    · have hj : B.length - (p + 1) < 7 := by omega
      have hgot := subAt_getElem _ _ _ hch (B.length - (p + 1))
        (by rw [show ("chapter".data).length = 7 from rfl]; exact hj)
      have hidx : (p + 1) + (B.length - (p + 1)) = B.length := by omega
      rw [hidx] at hgot
      have h1 : (B ++ tail)[B.length]? = some '_' := by
        rw [List.getElem?_append_right (le_refl _), Nat.sub_self]
        exact hh
      rw [h1] at hgot
      exact absurd (List.getElem?_mem hgot.symm) (by decide)

/-! ### Evaluating parseKey on generated keys -/

theorem drop_len_sub (B tail : List Char) (k : Nat) (hk : k ≤ tail.length) :
    (B ++ tail).drop ((B ++ tail).length - k) = tail.drop (tail.length - k) := by
  rw [List.length_append]
  have h : B.length + tail.length - k = B.length + (tail.length - k) := by omega
  rw [h, List.drop_append]

theorem take_len_sub (B tail : List Char) (k : Nat) (hk : k ≤ tail.length) :
    (B ++ tail).take ((B ++ tail).length - k) = B ++ tail.take (tail.length - k) := by
  rw [List.length_append]
  have h : B.length + tail.length - k = B.length + (tail.length - k) := by omega
  rw [h, List.take_append]

theorem parseKey_book_shape (rest : List Char) :
    parseKey (String.mk ("book_".data ++ rest)) =
      (match (if rest.drop (rest.length - 8) = "_summary".data then some CacheKeyType.summary
              else if rest.drop (rest.length - 8) = "_mindmap".data then some CacheKeyType.mindmap
              else none) with
       | some ty =>
         (match lastSepPos (rest.take (rest.length - 8)) with
          | some p =>
            some ⟨String.mk ((rest.take (rest.length - 8)).take p), ty,
                  some (String.mk ((rest.take (rest.length - 8)).drop (p + 9)))⟩
          | none => tryBookAlts rest bookAltsAsc)
       | none => tryBookAlts rest bookAltsAsc) := by
  have hdata : (String.mk ("book_".data ++ rest)).data = "book_".data ++ rest := rfl
  have htake : ("book_".data ++ rest).take 5 = "book_".data := by
    have h := List.take_left "book_".data rest
    exact h
  have hdrop : ("book_".data ++ rest).drop 5 = rest := by
    have h := List.drop_left "book_".data rest
    exact h
  rw [parseKey]
  simp only [hdata, htake, hdrop, if_pos]
  rcases hty : (if rest.drop (rest.length - 8) = "_summary".data then some CacheKeyType.summary
      else if rest.drop (rest.length - 8) = "_mindmap".data then some CacheKeyType.mindmap
      else none) with _ | ty
  · rfl
  · rcases hpos : lastSepPos (rest.take (rest.length - 8)) with _ | p <;> rfl

theorem parseKey_chapter_key (B C : List Char) (ty : CacheKeyType)
    (hB : B ≠ []) (hC : C ≠ []) (hCc : subCheck "chapter".data C = false)
    (hty : ty = CacheKeyType.summary ∨ ty = CacheKeyType.mindmap) :
    parseKey (String.mk ("book_".data ++ (B ++ sepL ++ C ++ '_' :: (typeStr ty).data))) =
      some ⟨String.mk B, ty, some (String.mk C)⟩ := by
  rw [parseKey_book_shape]
  have hlen8 : ('_' :: (typeStr ty).data).length = 8 := by
    rcases hty with h | h <;> subst h <;> rfl
  have hsuf : (B ++ sepL ++ C ++ '_' :: (typeStr ty).data).drop
      ((B ++ sepL ++ C ++ '_' :: (typeStr ty).data).length - 8) = '_' :: (typeStr ty).data := by
    have := drop_len_sub (B ++ sepL ++ C) ('_' :: (typeStr ty).data) 8 (by rw [hlen8])
    rw [hlen8] at this
    simpa using this
  have hmid : (B ++ sepL ++ C ++ '_' :: (typeStr ty).data).take
      ((B ++ sepL ++ C ++ '_' :: (typeStr ty).data).length - 8) = B ++ sepL ++ C := by
    have := take_len_sub (B ++ sepL ++ C) ('_' :: (typeStr ty).data) 8 (by rw [hlen8])
    rw [hlen8] at this
    simpa using this
  have hsep : lastSepPos (B ++ sepL ++ C) = some B.length :=
    lastSepPos_chapter B C hB hC hCc
  have htakeB : (B ++ sepL ++ C).take B.length = B := by
    rw [List.take_append_of_le_length (by rw [List.length_append]; omega),
      List.take_append_of_le_length (le_refl _), List.take_length]
  have hdropC : (B ++ sepL ++ C).drop (B.length + 9) = C := by
    have hx : B.length + 9 = (B ++ sepL).length := by rw [List.length_append]; rfl
    rw [hx, List.drop_left]
  rcases hty with h | h <;> subst h
  · rw [hsuf, hmid, hsep, if_pos (show '_' :: (typeStr CacheKeyType.summary).data =
      ['_', 's', 'u', 'm', 'm', 'a', 'r', 'y'] from rfl)]
    simp only [htakeB, hdropC]
  · rw [hsuf, hmid, hsep, if_neg (show ¬ ('_' :: (typeStr CacheKeyType.mindmap).data =
      ['_', 's', 'u', 'm', 'm', 'a', 'r', 'y']) from by decide),
      if_pos (show '_' :: (typeStr CacheKeyType.mindmap).data =
      ['_', 'm', 'i', 'n', 'd', 'm', 'a', 'p'] from rfl)]
    simp only [htakeB, hdropC]

theorem tryBookAlts_cons_skip (rest : List Char) (a : CacheKeyType) (tys : List CacheKeyType)
    (hcond : ¬ (('_' :: (typeStr a).data).length < rest.length ∧
        rest.drop (rest.length - ('_' :: (typeStr a).data).length) = '_' :: (typeStr a).data)) :
    tryBookAlts rest (a :: tys) = tryBookAlts rest tys := by
  simp only [tryBookAlts]
  rw [if_neg hcond]

theorem tryBookAlts_cons_found (rest : List Char) (a : CacheKeyType)
    (tys : List CacheKeyType)
    (h1 : ('_' :: (typeStr a).data).length < rest.length)
    (h2 : rest.drop (rest.length - ('_' :: (typeStr a).data).length) = '_' :: (typeStr a).data) :
    tryBookAlts rest (a :: tys) =
      some ⟨String.mk (rest.take (rest.length - ('_' :: (typeStr a).data).length)), a, none⟩ := by
  simp only [tryBookAlts]
  rw [if_pos ⟨h1, h2⟩]

/-- Why the alternative `a`, tried before `ty`, cannot match the remainder
`B ++ '_' ++ typeStr ty`: either `a`'s underscored form is no longer than
`ty`'s and is not its suffix, or it is strictly longer and `ty`'s underscored
form is not a suffix of it. -/
def altSkip (ty a : CacheKeyType) : Prop :=
  (('_' :: (typeStr a).data).length ≤ ('_' :: (typeStr ty).data).length ∧
    ('_' :: (typeStr ty).data).drop
      (('_' :: (typeStr ty).data).length - ('_' :: (typeStr a).data).length) ≠
      '_' :: (typeStr a).data) ∨
  (('_' :: (typeStr ty).data).length < ('_' :: (typeStr a).data).length ∧
    ('_' :: (typeStr a).data).drop
      (('_' :: (typeStr a).data).length - ('_' :: (typeStr ty).data).length) ≠
      '_' :: (typeStr ty).data)

instance (ty a : CacheKeyType) : Decidable (altSkip ty a) := by
  unfold altSkip; infer_instance

theorem tryBookAlts_found (B : List Char) (hB : B ≠ []) (ty : CacheKeyType)
    (pre post : List CacheKeyType)
    (hpre : ∀ a ∈ pre, altSkip ty a) :
    tryBookAlts (B ++ '_' :: (typeStr ty).data) (pre ++ ty :: post) =
      some ⟨String.mk B, ty, none⟩ := by
  have hBlen : 0 < B.length := List.length_pos.mpr hB
  induction pre with
  | nil =>
    rw [List.nil_append]
    have hsub : (B ++ '_' :: (typeStr ty).data).length - ('_' :: (typeStr ty).data).length
        = B.length := by
      rw [List.length_append]; omega
    have h1 : ('_' :: (typeStr ty).data).length < (B ++ '_' :: (typeStr ty).data).length := by
      rw [List.length_append]; omega
    have h2 : (B ++ '_' :: (typeStr ty).data).drop
        ((B ++ '_' :: (typeStr ty).data).length - ('_' :: (typeStr ty).data).length)
        = '_' :: (typeStr ty).data := by
      rw [hsub, List.drop_left]
    rw [tryBookAlts_cons_found _ ty post h1 h2, hsub, List.take_left]
  | cons a pre ih =>
    have ha := hpre a (List.mem_cons_self a pre)
    unfold altSkip at ha
    rw [List.cons_append, tryBookAlts_cons_skip]
    · exact ih (fun b hb => hpre b (List.mem_cons_of_mem a hb))
    · rintro ⟨h1, h2⟩
      rcases ha with ⟨hle, hne⟩ | ⟨hlt, hne⟩
      · rw [drop_len_sub B ('_' :: (typeStr ty).data) _ hle] at h2
        exact hne h2
      · have h3 := congrArg (List.drop (('_' :: (typeStr a).data).length -
          ('_' :: (typeStr ty).data).length)) h2
        rw [List.drop_drop] at h3
        have hlen : ((B ++ '_' :: (typeStr ty).data).length - ('_' :: (typeStr a).data).length) +
            (('_' :: (typeStr a).data).length - ('_' :: (typeStr ty).data).length) =
            (B ++ '_' :: (typeStr ty).data).length - ('_' :: (typeStr ty).data).length := by
          rw [List.length_append] at h1 ⊢
          omega
        rw [hlen, drop_len_sub B ('_' :: (typeStr ty).data) _ (le_refl _), Nat.sub_self,
          List.drop_zero] at h3
        exact hne h3.symm

theorem mkData (s : String) : String.mk s.data = s := rfl

theorem data_ne_nil (s : String) (h : s ≠ "") : s.data ≠ [] :=
  fun hd => h (by rw [← mkData s, hd])

theorem parseKey_book_plain (B : List Char) (ty : CacheKeyType)
    (h8 : 8 ≤ ('_' :: (typeStr ty).data).length)
    (hs1 : ('_' :: (typeStr ty).data).drop (('_' :: (typeStr ty).data).length - 8) ≠
      "_summary".data)
    (hs2 : ('_' :: (typeStr ty).data).drop (('_' :: (typeStr ty).data).length - 8) ≠
      "_mindmap".data) :
    parseKey (String.mk ("book_".data ++ (B ++ '_' :: (typeStr ty).data))) =
      tryBookAlts (B ++ '_' :: (typeStr ty).data) bookAltsAsc := by
  rw [parseKey_book_shape, drop_len_sub B ('_' :: (typeStr ty).data) 8 h8,
    if_neg hs1, if_neg hs2]

theorem parseKey_book_sumtail (B : List Char) (ty : CacheKeyType)
    (h8 : 8 ≤ ('_' :: (typeStr ty).data).length)
    (hsuf : ('_' :: (typeStr ty).data).drop (('_' :: (typeStr ty).data).length - 8) =
        "_summary".data ∨
      ('_' :: (typeStr ty).data).drop (('_' :: (typeStr ty).data).length - 8) =
        "_mindmap".data)
    (hnosep : lastSepPos (B ++ ('_' :: (typeStr ty).data).take
        (('_' :: (typeStr ty).data).length - 8)) = none) :
    parseKey (String.mk ("book_".data ++ (B ++ '_' :: (typeStr ty).data))) =
      tryBookAlts (B ++ '_' :: (typeStr ty).data) bookAltsAsc := by
  rw [parseKey_book_shape, drop_len_sub B ('_' :: (typeStr ty).data) 8 h8,
    take_len_sub B ('_' :: (typeStr ty).data) 8 h8]
  rcases hsuf with hsu | hsu
  · rw [if_pos hsu, hnosep]
  · by_cases hsm : ('_' :: (typeStr ty).data).drop
        (('_' :: (typeStr ty).data).length - 8) = "_summary".data
    · rw [if_pos hsm, hnosep]
    · rw [if_neg hsm, if_pos hsu, hnosep]

theorem parseKey_book_case_plain (B : List Char) (hB : B ≠ []) (ty : CacheKeyType)
    (pre post : List CacheKeyType) (halts : bookAltsAsc = pre ++ ty :: post)
    (h8 : 8 ≤ ('_' :: (typeStr ty).data).length)
    (hs1 : ('_' :: (typeStr ty).data).drop (('_' :: (typeStr ty).data).length - 8) ≠
      "_summary".data)
    (hs2 : ('_' :: (typeStr ty).data).drop (('_' :: (typeStr ty).data).length - 8) ≠
      "_mindmap".data)
    (hpre : ∀ a ∈ pre, altSkip ty a) :
    parseKey (String.mk ("book_".data ++ (B ++ '_' :: (typeStr ty).data))) =
      some ⟨String.mk B, ty, none⟩ := by
  rw [parseKey_book_plain B ty h8 hs1 hs2, halts, tryBookAlts_found B hB ty pre post hpre]

theorem parseKey_book_case_sumtail (B : List Char) (hB : B ≠ []) (ty : CacheKeyType)
    (pre post : List CacheKeyType) (halts : bookAltsAsc = pre ++ ty :: post)
    (hBc : subCheck "chapter".data B = false)
    (h8 : 8 ≤ ('_' :: (typeStr ty).data).length)
    (hsuf : ('_' :: (typeStr ty).data).drop (('_' :: (typeStr ty).data).length - 8) =
        "_summary".data ∨
      ('_' :: (typeStr ty).data).drop (('_' :: (typeStr ty).data).length - 8) =
        "_mindmap".data)
    (htailc : subCheck "chapter".data (('_' :: (typeStr ty).data).take
        (('_' :: (typeStr ty).data).length - 8)) = false)
    (hhead : (('_' :: (typeStr ty).data).take
        (('_' :: (typeStr ty).data).length - 8))[0]? = some '_')
    (hpre : ∀ a ∈ pre, altSkip ty a) :
    parseKey (String.mk ("book_".data ++ (B ++ '_' :: (typeStr ty).data))) =
      some ⟨String.mk B, ty, none⟩ := by
  rw [parseKey_book_sumtail B ty h8 hsuf
      (lastSepPos_none_tail B _ hBc htailc hhead),
    halts, tryBookAlts_found B hB ty pre post hpre]

/-- The book-level cache key types recognised by parseKey. -/
def bookKinds : List CacheKeyType :=
  [.connections, .overall_summary, .character_relationship, .combined_mindmap,
   .merged_mindmap, .mindmap_arrows, .selected_chapters, .chapter_tags, .custom_prompt,
   .use_custom_only]

theorem generateKey_chapter_data (fn c : String) (ty : CacheKeyType) (hc : c ≠ "") :
    CacheService.generateKey fn ty (some c) =
      String.mk ("book_".data ++
        ((cleanFilename fn).data ++ sepL ++ c.data ++ '_' :: (typeStr ty).data)) := by
  rw [CacheService.generateKey]
  simp only [hc, if_neg]
  rw [← mkData ("book_" ++ cleanFilename fn ++ "_chapter_" ++ c ++ "_" ++ typeStr ty)]
  simp [String.data_append, sepL, List.append_assoc]

theorem generateKey_book_data (fn : String) (ty : CacheKeyType) :
    CacheService.generateKey fn ty none =
      String.mk ("book_".data ++ ((cleanFilename fn).data ++ '_' :: (typeStr ty).data)) := by
  rw [CacheService.generateKey]
  rw [← mkData ("book_" ++ cleanFilename fn ++ "_" ++ typeStr ty)]
  congr 1
  simp [String.data_append, List.append_assoc]

/-- Claim C2 (amended): provided the sanitized book token is nonempty and
does not contain the substring `chapter`, decoding a generated key recovers
exactly the token, the kind, and the entity id that produced it — for
book-level keys of each kind parseKey recognises, and for chapter-level keys
of the kinds the pipeline stores under an entity id (summary, mindmap) with
a nonempty entity id that does not contain `chapter`. Without these
provisos the round-trip fails (see the counterexample). -/
theorem claim2_key_roundtrip (filename : String) (ty : CacheKeyType) (cid : Option String)
    (hB : cleanFilename filename ≠ "")
    (hBc : subCheck "chapter".data (cleanFilename filename).data = false)
    (hcid : match cid with
            | none => ty ∈ bookKinds
            | some c => c ≠ "" ∧ subCheck "chapter".data c.data = false ∧
                (ty = CacheKeyType.summary ∨ ty = CacheKeyType.mindmap)) :
    parseKey (CacheService.generateKey filename ty cid) =
      some ⟨cleanFilename filename, ty, cid⟩ := by
  have hBd : (cleanFilename filename).data ≠ [] := data_ne_nil _ hB
  cases cid with
  | some c =>
    obtain ⟨hc, hcc, hty⟩ := hcid
    rw [generateKey_chapter_data filename c ty hc]
    have hcd : c.data ≠ [] := data_ne_nil _ hc
    have hres := parseKey_chapter_key (cleanFilename filename).data c.data ty hBd hcd hcc hty
    rw [show (cleanFilename filename).data ++ sepL ++ c.data ++ '_' :: (typeStr ty).data =
        ((cleanFilename filename).data ++ sepL ++ c.data) ++ '_' :: (typeStr ty).data from by
      simp [List.append_assoc]]
    rw [show ((cleanFilename filename).data ++ sepL ++ c.data) ++ '_' :: (typeStr ty).data =
        (cleanFilename filename).data ++ sepL ++ c.data ++ '_' :: (typeStr ty).data from by
      simp [List.append_assoc]]
    rw [hres, mkData, mkData]
  | none =>
    rw [generateKey_book_data filename ty]
    have hmem : ty ∈ bookKinds := hcid
    have hgoal : parseKey (String.mk ("book_".data ++
        ((cleanFilename filename).data ++ '_' :: (typeStr ty).data))) =
        some ⟨String.mk (cleanFilename filename).data, ty, none⟩ := by
      fin_cases hmem
      · exact parseKey_book_case_plain _ hBd .connections []
          [.chapter_tags, .custom_prompt, .overall_summary, .merged_mindmap,
           .mindmap_arrows, .use_custom_only, .combined_mindmap, .selected_chapters,
           .character_relationship]
          rfl (by decide) (by decide) (by decide) (by decide)
      · exact parseKey_book_case_sumtail _ hBd .overall_summary
          [.connections, .chapter_tags, .custom_prompt]
          [.merged_mindmap, .mindmap_arrows, .use_custom_only, .combined_mindmap,
           .selected_chapters, .character_relationship]
          rfl hBc (by decide) (Or.inl (by decide)) (by decide) (by decide) (by decide)
      · exact parseKey_book_case_plain _ hBd .character_relationship
          [.connections, .chapter_tags, .custom_prompt, .overall_summary, .merged_mindmap,
           .mindmap_arrows, .use_custom_only, .combined_mindmap, .selected_chapters] []
          rfl (by decide) (by decide) (by decide) (by decide)
      · exact parseKey_book_case_sumtail _ hBd .combined_mindmap
          [.connections, .chapter_tags, .custom_prompt, .overall_summary, .merged_mindmap,
           .mindmap_arrows, .use_custom_only]
          [.selected_chapters, .character_relationship]
          rfl hBc (by decide) (Or.inr (by decide)) (by decide) (by decide) (by decide)
      · exact parseKey_book_case_sumtail _ hBd .merged_mindmap
          [.connections, .chapter_tags, .custom_prompt, .overall_summary]
          [.mindmap_arrows, .use_custom_only, .combined_mindmap, .selected_chapters,
           .character_relationship]
          rfl hBc (by decide) (Or.inr (by decide)) (by decide) (by decide) (by decide)
      · exact parseKey_book_case_plain _ hBd .mindmap_arrows
          [.connections, .chapter_tags, .custom_prompt, .overall_summary, .merged_mindmap]
          [.use_custom_only, .combined_mindmap, .selected_chapters, .character_relationship]
          rfl (by decide) (by decide) (by decide) (by decide)
      · exact parseKey_book_case_plain _ hBd .selected_chapters
          [.connections, .chapter_tags, .custom_prompt, .overall_summary, .merged_mindmap,
           .mindmap_arrows, .use_custom_only, .combined_mindmap]
          [.character_relationship]
          rfl (by decide) (by decide) (by decide) (by decide)
      · exact parseKey_book_case_plain _ hBd .chapter_tags [.connections]
          [.custom_prompt, .overall_summary, .merged_mindmap, .mindmap_arrows,
           .use_custom_only, .combined_mindmap, .selected_chapters, .character_relationship]
          rfl (by decide) (by decide) (by decide) (by decide)
      · exact parseKey_book_case_plain _ hBd .custom_prompt [.connections, .chapter_tags]
          [.overall_summary, .merged_mindmap, .mindmap_arrows, .use_custom_only,
           .combined_mindmap, .selected_chapters, .character_relationship]
          rfl (by decide) (by decide) (by decide) (by decide)
      · exact parseKey_book_case_plain _ hBd .use_custom_only
          [.connections, .chapter_tags, .custom_prompt, .overall_summary, .merged_mindmap,
           .mindmap_arrows]
          [.combined_mindmap, .selected_chapters, .character_relationship]
          rfl (by decide) (by decide) (by decide) (by decide)
    rw [hgoal, mkData]

/-- Counterexample to C2: the filename `a chapter.epub` sanitizes to the
token `a_chapter`, whose book-level `overall_summary` key is decoded by
parseKey as a chapter-level key of book `a`, chapter `overall`, type
`summary` — the tuple does not round-trip and a book-level key is decoded as
a chapter-level one. -/
theorem claim2_counterexample :
    CacheService.generateKey "a chapter.epub" .overall_summary none =
      "book_a_chapter_overall_summary" ∧
    parseKey "book_a_chapter_overall_summary" =
      some ⟨"a", .summary, some "overall"⟩ ∧
    (⟨"a", CacheKeyType.summary, some "overall"⟩ : ParsedKey) ≠
      ⟨cleanFilename "a chapter.epub", .overall_summary, none⟩ :=
  ⟨rfl, by decide, by decide⟩

theorem mergeChildren_getElem (chs : List Chapter) : ∀ (n i : Nat),
    (BookProcessingService.mergeChildren n chs)[i]? =
      (chs[i]?).map (fun ch => MindNode.node ch.title ("chapter_" ++ toString (n + i + 1)) []
        (BookProcessingService.childrenOf ch.mindMap)) := by
  induction chs with
  | nil => intro n i; simp [BookProcessingService.mergeChildren]
  | cons ch rest ih =>
    intro n i
    cases i with
    | zero => simp [BookProcessingService.mergeChildren]
    | succ j =>
      have harith : n + (j + 1) + 1 = (n + 1) + j + 1 := by omega
      simp only [BookProcessingService.mergeChildren, List.getElem?_cons_succ, harith,
        ih (n + 1) j]

/-- Claim C8 (amended): in chapter-mind-map mode, on a cache miss the merge
step builds a root node labeled with the book title (id `0`, tag `全书`)
whose children are one synthetic node per *chapter* — id `chapter_{i+1}`,
holding that chapter's mind-map children, so the subtree of a multi-chapter
group is repeated once per member chapter instead of appearing once per
group — performs no generation call, and persists the merged map under the
`merged_mindmap` kind; re-entering with the resulting store is a cache hit
returning the same map with the store unchanged. -/
theorem claim8_merge_structure (env : Env) (hr : env.readFails = false)
    (hw : env.writeFails = false) (st : Store) (fn bt : String) (chs : List Chapter)
    (hmiss : ¬ mindHitAt st (bookKey fn .merged_mindmap)) :
    BookProcessingService.mergeMindMaps env st fn bt chs =
      ⟨.ok (BookProcessingService.mergedVal bt chs),
       setItem st (bookKey fn .merged_mindmap)
         (.mind (BookProcessingService.mergedVal bt chs)), 0, []⟩ ∧
    (BookProcessingService.mergedVal bt chs).nodeData =
      .root (.node bt "0" ["全书"] (BookProcessingService.mergeChildren 0 chs)) ∧
    (∀ i : Nat, (BookProcessingService.mergeChildren 0 chs)[i]? =
      (chs[i]?).map (fun ch => MindNode.node ch.title ("chapter_" ++ toString (i + 1)) []
        (BookProcessingService.childrenOf ch.mindMap))) ∧
    BookProcessingService.mergeMindMaps env
        (setItem st (bookKey fn .merged_mindmap)
          (.mind (BookProcessingService.mergedVal bt chs))) fn bt chs =
      ⟨.ok (BookProcessingService.mergedVal bt chs),
       setItem st (bookKey fn .merged_mindmap)
         (.mind (BookProcessingService.mergedVal bt chs)), 0, []⟩ := by
  refine ⟨merge_miss env hr hw st fn bt chs hmiss, rfl, ?_, ?_⟩
  · intro i
    have h := mergeChildren_getElem chs 0 i
    simpa using h
  · exact merge_hit env hr _ fn bt chs _ (lookup_setItem_self st _ _) rfl

set_option maxRecDepth 4096 in
/-- Counterexample to C8: a single tagged group of two chapters produces a
merged root with two children — one per chapter, each carrying a copy of the
group subtree — not one child per group as the spec states. -/
theorem claim8_counterexample :
    (runPipeline noFault oW false [] "b" "BT"
        [⟨"c1", "T1", "X1"⟩, ⟨"c2", "T2", "X2"⟩] [("c1", "t"), ("c2", "t")]
        .mindmap .fiction).res.toOption.map
      (fun r => (r.groups.length,
        r.combinedMindMap.map (fun m =>
          match m.nodeData with
          | .root (.node t i tg cs) => (t ++ "/" ++ i ++ "/" ++ String.intercalate "," tg,
              cs.length)
          | _ => ("", 0)))) =
      some (1, some ("BT/0/全书", 2)) := by decide

/-- Witness for the amended C8 at a concrete one-chapter store. -/
theorem claim8_witness :
    (¬ mindHitAt ([] : Store) (bookKey "b" .merged_mindmap)) ∧
    BookProcessingService.mergeMindMaps noFault [] "b" "BT"
        [⟨"c1", "T1", "X1", none, none, some meRoot⟩] =
      ⟨.ok (BookProcessingService.mergedVal "BT"
              [⟨"c1", "T1", "X1", none, none, some meRoot⟩]),
       setItem [] (bookKey "b" .merged_mindmap)
         (.mind (BookProcessingService.mergedVal "BT"
            [⟨"c1", "T1", "X1", none, none, some meRoot⟩])), 0, []⟩ := by
  have hmiss : ¬ mindHitAt ([] : Store) (bookKey "b" .merged_mindmap) := by
    rintro ⟨m, hm, -⟩
    simp [lookup] at hm
  exact ⟨hmiss, (claim8_merge_structure noFault rfl rfl [] "b" "BT"
    [⟨"c1", "T1", "X1", none, none, some meRoot⟩] hmiss).1⟩

/-- Witness for the amended C2 at a concrete chapter-level key. -/
theorem claim2_witness :
    (cleanFilename "mybook.epub" ≠ "") ∧
    (subCheck "chapter".data (cleanFilename "mybook.epub").data = false) ∧
    (("g1" : String) ≠ "" ∧ subCheck "chapter".data ("g1" : String).data = false ∧
      (CacheKeyType.summary = CacheKeyType.summary ∨
       CacheKeyType.summary = CacheKeyType.mindmap)) ∧
    parseKey (CacheService.generateKey "mybook.epub" .summary (some "g1")) =
      some ⟨cleanFilename "mybook.epub", .summary, some "g1"⟩ :=
  ⟨by decide, by decide, ⟨by decide, by decide, Or.inl rfl⟩,
   claim2_key_roundtrip "mybook.epub" .summary (some "g1") (by decide) (by decide)
     ⟨by decide, by decide, Or.inl rfl⟩⟩

/-! ### Claim 1: strip maps and key distinctness -/

/-- A group with its reasoning dropped — the shape of a cache-hit replay. -/
def stripGroup (g : ChapterGroup) : ChapterGroup := { g with reasoning := none }

/-- A chapter with its reasoning dropped. -/
def stripChapter (c : Chapter) : Chapter := { c with reasoning := none }

/-- The artifacts of a fully cached re-run: identical to the first run's
except that every reasoning field is absent. -/
def stripResult (r : PipeResult) : PipeResult :=
  { r with groups := r.groups.map stripGroup, chapters := r.chapters.map stripChapter }

theorem truthy_present (t : NodeField) (h : t.truthy = true) : t.present = true := by
  cases t <;> simp [NodeField.truthy, NodeField.present] at h ⊢

theorem stripGroup_mkSummary (g : TempChapterGroup) (s r' : String) :
    stripGroup (BookProcessingService.mkSummaryGroup g s r') =
      BookProcessingService.mkSummaryGroup g s "" := rfl

theorem stripChapters_mkSummary (g : TempChapterGroup) (s r' : String) :
    (BookProcessingService.mkSummaryChapters g s r').map stripChapter =
      BookProcessingService.mkSummaryChapters g s "" := by
  rw [BookProcessingService.mkSummaryChapters, BookProcessingService.mkSummaryChapters,
    List.map_map]
  exact List.map_congr_left (fun ch _ => rfl)

theorem stripGroup_mkMind (g : TempChapterGroup) (m : MEVal) :
    stripGroup (BookProcessingService.mkMindGroup g m) =
      BookProcessingService.mkMindGroup g m := rfl

theorem stripChapters_mkMind (g : TempChapterGroup) (m : MEVal) :
    (BookProcessingService.mkMindChapters g m).map stripChapter =
      BookProcessingService.mkMindChapters g m := by
  rw [BookProcessingService.mkMindChapters, List.map_map]
  exact List.map_congr_left (fun ch _ => rfl)

theorem generateKey_some_empty (fn : String) (ty : CacheKeyType) :
    CacheService.generateKey fn ty (some "") = CacheService.generateKey fn ty none := by
  simp [CacheService.generateKey]

theorem bookKey_typeStr_eq (fn : String) (ty ty' : CacheKeyType)
    (h : bookKey fn ty = bookKey fn ty') : typeStr ty = typeStr ty' := by
  rw [bookKey, bookKey, generateKey_book_data, generateKey_book_data] at h
  have hd : "book_".data ++ ((cleanFilename fn).data ++ '_' :: (typeStr ty).data) =
      "book_".data ++ ((cleanFilename fn).data ++ '_' :: (typeStr ty').data) :=
    congrArg String.data h
  have h1 := List.append_cancel_left hd
  have h2 := List.append_cancel_left h1
  have h3 : (typeStr ty).data = (typeStr ty').data := (List.cons.inj h2).2
  calc typeStr ty = String.mk (typeStr ty).data := (mkData _).symm
    _ = String.mk (typeStr ty').data := by rw [h3]
    _ = typeStr ty' := mkData _

theorem bookKey_ne (fn : String) (ty ty' : CacheKeyType) (h : typeStr ty ≠ typeStr ty') :
    bookKey fn ty ≠ bookKey fn ty' := fun he => h (bookKey_typeStr_eq fn ty ty' he)

/-- A chapter-level key never equals a book-level key whose underscored
kind string differs from `_chapter_` at some index below 9 (the index
argument also rules out the empty-chapter-id degenerate form, where the key
falls back to the book shape, via the kind strings differing). -/
theorem chapterKey_ne_bookKey (fn cid : String) (tyc tyb : CacheKeyType)
    (hb : typeStr tyc ≠ typeStr tyb) (i : Nat) (hi9 : i < 9)
    (hne : sepL[i]? ≠ ('_' :: (typeStr tyb).data)[i]?) :
    CacheService.generateKey fn tyc (some cid) ≠ bookKey fn tyb := by
  intro he
  by_cases hc : cid = ""
  · subst hc
    rw [generateKey_some_empty, ← bookKey] at he
    exact hb (bookKey_typeStr_eq fn tyc tyb he)
  · rw [generateKey_chapter_data fn cid tyc hc, bookKey, generateKey_book_data fn tyb] at he
    have hd : "book_".data ++ ((cleanFilename fn).data ++ sepL ++ cid.data ++
        '_' :: (typeStr tyc).data) =
        "book_".data ++ ((cleanFilename fn).data ++ '_' :: (typeStr tyb).data) :=
      congrArg String.data he
    have h1 := List.append_cancel_left hd
    simp only [List.append_assoc] at h1
    have h2 := List.append_cancel_left h1
    have h3 : (sepL ++ (cid.data ++ '_' :: (typeStr tyc).data))[i]? =
        ('_' :: (typeStr tyb).data)[i]? := congrArg (fun l => l[i]?) h2
    rw [List.getElem?_append_left (by rw [show sepL.length = 9 from rfl]; omega)] at h3
    exact hne h3

theorem psgKey_ne_connections (fn : String) (g : TempChapterGroup) :
    psgKey fn g ≠ bookKey fn .connections :=
  chapterKey_ne_bookKey fn g.groupId .summary .connections (by decide) 2 (by omega) (by decide)

theorem psgKey_ne_overall (fn : String) (g : TempChapterGroup) :
    psgKey fn g ≠ bookKey fn .overall_summary :=
  chapterKey_ne_bookKey fn g.groupId .summary .overall_summary (by decide) 1 (by omega)
    (by decide)

theorem psgKey_ne_charRel (fn : String) (g : TempChapterGroup) :
    psgKey fn g ≠ bookKey fn .character_relationship :=
  chapterKey_ne_bookKey fn g.groupId .summary .character_relationship (by decide) 4 (by omega)
    (by decide)

theorem mmKey_ne_merged (fn : String) (g : TempChapterGroup) :
    mmKey fn g ≠ bookKey fn .merged_mindmap :=
  chapterKey_ne_bookKey fn g.groupId .mindmap .merged_mindmap (by decide) 1 (by omega)
    (by decide)

/-! ### Claim 1: frame and replay of the per-group phases -/

theorem rsg_frame (env : Env) (hr : env.readFails = false) (hw : env.writeFails = false)
    (o : Oracle) (ab : Bool) (fn : String) :
    ∀ (groups : List TempChapterGroup) (st : Store) (gs : List ChapterGroup)
      (cs : List Chapter) (st' : Store) (n : Nat),
      runSummaryGroups env o ab fn st groups = ⟨.ok (gs, cs), st', n⟩ →
      ∀ k, (∀ g ∈ groups, k ≠ psgKey fn g) → lookup st' k = lookup st k := by
  intro groups
  induction groups with
  | nil =>
    intro st gs cs st' n h k hk
    obtain ⟨-, h2, -⟩ := PhaseOut.mk.inj h
    rw [← h2]
  | cons g rest ih =>
    intro st gs cs st' n h k hk
    simp only [runSummaryGroups] at h
    rcases hres : (BookProcessingService.processSummaryGroup env o ab st g fn true).res
      with e | ⟨pg, pcs⟩
    · simp only [hres] at h
      exact absurd (PhaseOut.mk.inj h).1 (by simp)
    · simp only [hres] at h
      rcases hrr : (runSummaryGroups env o ab fn
          (BookProcessingService.processSummaryGroup env o ab st g fn true).store rest).res
        with e | ⟨gs', cs'⟩
      · simp only [hrr] at h
        exact absurd (PhaseOut.mk.inj h).1 (by simp)
      · simp only [hrr] at h
        obtain ⟨h1, h2, h3⟩ := PhaseOut.mk.inj h
        have hpeta : BookProcessingService.processSummaryGroup env o ab st g fn true =
            ⟨.ok (pg, pcs),
             (BookProcessingService.processSummaryGroup env o ab st g fn true).store,
             (BookProcessingService.processSummaryGroup env o ab st g fn true).calls,
             (BookProcessingService.processSummaryGroup env o ab st g fn true).cb⟩ := by
          have he : BookProcessingService.processSummaryGroup env o ab st g fn true =
              ⟨(BookProcessingService.processSummaryGroup env o ab st g fn true).res,
               (BookProcessingService.processSummaryGroup env o ab st g fn true).store,
               (BookProcessingService.processSummaryGroup env o ab st g fn true).calls,
               (BookProcessingService.processSummaryGroup env o ab st g fn true).cb⟩ := rfl
          rw [hres] at he
          exact he
        have heta : runSummaryGroups env o ab fn
            (BookProcessingService.processSummaryGroup env o ab st g fn true).store rest =
            ⟨.ok (gs', cs'),
             (runSummaryGroups env o ab fn
               (BookProcessingService.processSummaryGroup env o ab st g fn true).store
               rest).store,
             (runSummaryGroups env o ab fn
               (BookProcessingService.processSummaryGroup env o ab st g fn true).store
               rest).calls⟩ := by
          have he : runSummaryGroups env o ab fn
              (BookProcessingService.processSummaryGroup env o ab st g fn true).store rest =
              ⟨(runSummaryGroups env o ab fn
                 (BookProcessingService.processSummaryGroup env o ab st g fn true).store
                 rest).res,
               (runSummaryGroups env o ab fn
                 (BookProcessingService.processSummaryGroup env o ab st g fn true).store
                 rest).store,
               (runSummaryGroups env o ab fn
                 (BookProcessingService.processSummaryGroup env o ab st g fn true).store
                 rest).calls⟩ := rfl
          rw [hrr] at he
          exact he
        obtain ⟨s, r', -, -, -, hcase⟩ :=
          psg_success env hr hw o ab st g fn true pg pcs _ _ _ hpeta
        have hfr := ih _ gs' cs' _ _ heta k (fun g' hg' => hk g' (List.mem_cons_of_mem g hg'))
        rw [← h2, hfr]
        rcases hcase with ⟨hst, -, -, -⟩ | ⟨hst, -, -⟩
        · rw [hst]
        · rw [hst, lookup_setItem_ne st (psgKey fn g) k (.str s)
            (hk g (List.mem_cons_self g rest))]

theorem rsg_replay (env : Env) (hr : env.readFails = false) (hw : env.writeFails = false)
    (o : Oracle) (fn : String) :
    ∀ (groups : List TempChapterGroup) (st st₂ : Store) (gs : List ChapterGroup)
      (cs : List Chapter) (st' : Store) (n : Nat),
      List.Pairwise (fun a b => psgKey fn a ≠ psgKey fn b) groups →
      runSummaryGroups env o false fn st groups = ⟨.ok (gs, cs), st', n⟩ →
      (∀ g ∈ groups, lookup st₂ (psgKey fn g) = lookup st' (psgKey fn g)) →
      runSummaryGroups env o false fn st₂ groups =
        ⟨.ok (gs.map stripGroup, cs.map stripChapter), st₂, 0⟩ := by
  intro groups
  induction groups with
  | nil =>
    intro st st₂ gs cs st' n hpw h hagree
    obtain ⟨h1, -, -⟩ := PhaseOut.mk.inj h
    obtain ⟨hgs, hcs⟩ := Prod.mk.inj (Except.ok.inj h1)
    rw [← hgs, ← hcs]
    rfl
  | cons g rest ih =>
    intro st st₂ gs cs st' n hpw h hagree
    obtain ⟨hg_rest, hpw_rest⟩ := List.pairwise_cons.mp hpw
    simp only [runSummaryGroups] at h
    rcases hres : (BookProcessingService.processSummaryGroup env o false st g fn true).res
      with e | ⟨pg, pcs⟩
    · simp only [hres] at h
      exact absurd (PhaseOut.mk.inj h).1 (by simp)
    · simp only [hres] at h
      rcases hrr : (runSummaryGroups env o false fn
          (BookProcessingService.processSummaryGroup env o false st g fn true).store rest).res
        with e | ⟨gs', cs'⟩
      · simp only [hrr] at h
        exact absurd (PhaseOut.mk.inj h).1 (by simp)
      · simp only [hrr] at h
        obtain ⟨h1, h2, h3⟩ := PhaseOut.mk.inj h
        obtain ⟨hgs, hcs⟩ := Prod.mk.inj (Except.ok.inj h1)
        have hpeta : BookProcessingService.processSummaryGroup env o false st g fn true =
            ⟨.ok (pg, pcs),
             (BookProcessingService.processSummaryGroup env o false st g fn true).store,
             (BookProcessingService.processSummaryGroup env o false st g fn true).calls,
             (BookProcessingService.processSummaryGroup env o false st g fn true).cb⟩ := by
          have he : BookProcessingService.processSummaryGroup env o false st g fn true =
              ⟨(BookProcessingService.processSummaryGroup env o false st g fn true).res,
               (BookProcessingService.processSummaryGroup env o false st g fn true).store,
               (BookProcessingService.processSummaryGroup env o false st g fn true).calls,
               (BookProcessingService.processSummaryGroup env o false st g fn true).cb⟩ := rfl
          rw [hres] at he
          exact he
        have heta : runSummaryGroups env o false fn
            (BookProcessingService.processSummaryGroup env o false st g fn true).store rest =
            ⟨.ok (gs', cs'),
             (runSummaryGroups env o false fn
               (BookProcessingService.processSummaryGroup env o false st g fn true).store
               rest).store,
             (runSummaryGroups env o false fn
               (BookProcessingService.processSummaryGroup env o false st g fn true).store
               rest).calls⟩ := by
          have he : runSummaryGroups env o false fn
              (BookProcessingService.processSummaryGroup env o false st g fn true).store rest =
              ⟨(runSummaryGroups env o false fn
                 (BookProcessingService.processSummaryGroup env o false st g fn true).store
                 rest).res,
               (runSummaryGroups env o false fn
                 (BookProcessingService.processSummaryGroup env o false st g fn true).store
                 rest).store,
               (runSummaryGroups env o false fn
                 (BookProcessingService.processSummaryGroup env o false st g fn true).store
                 rest).calls⟩ := rfl
          rw [hrr] at he
          exact he
        obtain ⟨s, r', hpg, hpcs, hsne, hcase⟩ :=
          psg_success env hr hw o false st g fn true pg pcs _ _ _ hpeta
        have hlk1 : lookup
            (BookProcessingService.processSummaryGroup env o false st g fn true).store
            (psgKey fn g) = some (.str s) := by
          rcases hcase with ⟨hst, hl, -, -⟩ | ⟨hst, -, -⟩
          · rw [hst]; exact hl
          · rw [hst]; exact lookup_setItem_self st (psgKey fn g) (.str s)
        have hfr := rsg_frame env hr hw o false fn rest _ gs' cs' _ _ heta (psgKey fn g)
          (fun g' hg' => hg_rest g' hg')
        have hlk2 : lookup st₂ (psgKey fn g) = some (.str s) := by
          rw [hagree g (List.mem_cons_self g rest), ← h2, hfr]
          exact hlk1
        have hhit := psg_hit env hr o false st₂ g fn true s hlk2 hsne
        have hih := ih _ st₂ gs' cs' _ _ hpw_rest heta
          (fun g' hg' => by rw [hagree g' (List.mem_cons_of_mem g hg'), ← h2])
        rw [← hgs, ← hcs]
        simp only [runSummaryGroups, hhit, hih, List.map_cons, List.map_append, hpg, hpcs,
          stripGroup_mkSummary, stripChapters_mkSummary]

theorem rmg_frame (env : Env) (hr : env.readFails = false) (hw : env.writeFails = false)
    (o : Oracle) (ab : Bool) (fn : String) :
    ∀ (groups : List TempChapterGroup) (st : Store) (gs : List ChapterGroup)
      (cs : List Chapter) (st' : Store) (n : Nat),
      runMindGroups env o ab fn st groups = ⟨.ok (gs, cs), st', n⟩ →
      ∀ k, (∀ g ∈ groups, k ≠ mmKey fn g) → lookup st' k = lookup st k := by
  intro groups
  induction groups with
  | nil =>
    intro st gs cs st' n h k hk
    obtain ⟨-, h2, -⟩ := PhaseOut.mk.inj h
    rw [← h2]
  | cons g rest ih =>
    intro st gs cs st' n h k hk
    simp only [runMindGroups] at h
    rcases hres : (BookProcessingService.processMindMapGroup env o ab st g fn).res
      with e | ⟨pg, pcs⟩
    · simp only [hres] at h
      exact absurd (PhaseOut.mk.inj h).1 (by simp)
    · simp only [hres] at h
      rcases hrr : (runMindGroups env o ab fn
          (BookProcessingService.processMindMapGroup env o ab st g fn).store rest).res
        with e | ⟨gs', cs'⟩
      · simp only [hrr] at h
        exact absurd (PhaseOut.mk.inj h).1 (by simp)
      · simp only [hrr] at h
        obtain ⟨h1, h2, h3⟩ := PhaseOut.mk.inj h
        have hpeta : BookProcessingService.processMindMapGroup env o ab st g fn =
            ⟨.ok (pg, pcs),
             (BookProcessingService.processMindMapGroup env o ab st g fn).store,
             (BookProcessingService.processMindMapGroup env o ab st g fn).calls,
             (BookProcessingService.processMindMapGroup env o ab st g fn).cb⟩ := by
          have he : BookProcessingService.processMindMapGroup env o ab st g fn =
              ⟨(BookProcessingService.processMindMapGroup env o ab st g fn).res,
               (BookProcessingService.processMindMapGroup env o ab st g fn).store,
               (BookProcessingService.processMindMapGroup env o ab st g fn).calls,
               (BookProcessingService.processMindMapGroup env o ab st g fn).cb⟩ := rfl
          rw [hres] at he
          exact he
        have heta : runMindGroups env o ab fn
            (BookProcessingService.processMindMapGroup env o ab st g fn).store rest =
            ⟨.ok (gs', cs'),
             (runMindGroups env o ab fn
               (BookProcessingService.processMindMapGroup env o ab st g fn).store rest).store,
             (runMindGroups env o ab fn
               (BookProcessingService.processMindMapGroup env o ab st g fn).store
               rest).calls⟩ := by
          have he : runMindGroups env o ab fn
              (BookProcessingService.processMindMapGroup env o ab st g fn).store rest =
              ⟨(runMindGroups env o ab fn
                 (BookProcessingService.processMindMapGroup env o ab st g fn).store rest).res,
               (runMindGroups env o ab fn
                 (BookProcessingService.processMindMapGroup env o ab st g fn).store
                 rest).store,
               (runMindGroups env o ab fn
                 (BookProcessingService.processMindMapGroup env o ab st g fn).store
                 rest).calls⟩ := rfl
          rw [hrr] at he
          exact he
        obtain ⟨m, -, -, -, hcase⟩ :=
          pmg_success env hr hw o ab st g fn pg pcs _ _ _ hpeta
        have hfr := ih _ gs' cs' _ _ heta k (fun g' hg' => hk g' (List.mem_cons_of_mem g hg'))
        rw [← h2, hfr]
        rcases hcase with ⟨hst, -, -⟩ | ⟨hst, -, -⟩
        · rw [hst]
        · rw [hst, lookup_setItem_ne st (mmKey fn g) k (.mind m)
            (hk g (List.mem_cons_self g rest))]

theorem rmg_replay (env : Env) (hr : env.readFails = false) (hw : env.writeFails = false)
    (o : Oracle) (fn : String) :
    ∀ (groups : List TempChapterGroup) (st st₂ : Store) (gs : List ChapterGroup)
      (cs : List Chapter) (st' : Store) (n : Nat),
      List.Pairwise (fun a b => mmKey fn a ≠ mmKey fn b) groups →
      runMindGroups env o false fn st groups = ⟨.ok (gs, cs), st', n⟩ →
      (∀ g ∈ groups, lookup st₂ (mmKey fn g) = lookup st' (mmKey fn g)) →
      runMindGroups env o false fn st₂ groups =
        ⟨.ok (gs.map stripGroup, cs.map stripChapter), st₂, 0⟩ := by
  intro groups
  induction groups with
  | nil =>
    intro st st₂ gs cs st' n hpw h hagree
    obtain ⟨h1, -, -⟩ := PhaseOut.mk.inj h
    obtain ⟨hgs, hcs⟩ := Prod.mk.inj (Except.ok.inj h1)
    rw [← hgs, ← hcs]
    rfl
  | cons g rest ih =>
    intro st st₂ gs cs st' n hpw h hagree
    obtain ⟨hg_rest, hpw_rest⟩ := List.pairwise_cons.mp hpw
    simp only [runMindGroups] at h
    rcases hres : (BookProcessingService.processMindMapGroup env o false st g fn).res
      with e | ⟨pg, pcs⟩
    · simp only [hres] at h
      exact absurd (PhaseOut.mk.inj h).1 (by simp)
    · simp only [hres] at h
      rcases hrr : (runMindGroups env o false fn
          (BookProcessingService.processMindMapGroup env o false st g fn).store rest).res
        with e | ⟨gs', cs'⟩
      · simp only [hrr] at h
        exact absurd (PhaseOut.mk.inj h).1 (by simp)
      · simp only [hrr] at h
        obtain ⟨h1, h2, h3⟩ := PhaseOut.mk.inj h
        obtain ⟨hgs, hcs⟩ := Prod.mk.inj (Except.ok.inj h1)
        have hpeta : BookProcessingService.processMindMapGroup env o false st g fn =
            ⟨.ok (pg, pcs),
             (BookProcessingService.processMindMapGroup env o false st g fn).store,
             (BookProcessingService.processMindMapGroup env o false st g fn).calls,
             (BookProcessingService.processMindMapGroup env o false st g fn).cb⟩ := by
          have he : BookProcessingService.processMindMapGroup env o false st g fn =
              ⟨(BookProcessingService.processMindMapGroup env o false st g fn).res,
               (BookProcessingService.processMindMapGroup env o false st g fn).store,
               (BookProcessingService.processMindMapGroup env o false st g fn).calls,
               (BookProcessingService.processMindMapGroup env o false st g fn).cb⟩ := rfl
          rw [hres] at he
          exact he
        have heta : runMindGroups env o false fn
            (BookProcessingService.processMindMapGroup env o false st g fn).store rest =
            ⟨.ok (gs', cs'),
             (runMindGroups env o false fn
               (BookProcessingService.processMindMapGroup env o false st g fn).store
               rest).store,
             (runMindGroups env o false fn
               (BookProcessingService.processMindMapGroup env o false st g fn).store
               rest).calls⟩ := by
          have he : runMindGroups env o false fn
              (BookProcessingService.processMindMapGroup env o false st g fn).store rest =
              ⟨(runMindGroups env o false fn
                 (BookProcessingService.processMindMapGroup env o false st g fn).store
                 rest).res,
               (runMindGroups env o false fn
                 (BookProcessingService.processMindMapGroup env o false st g fn).store
                 rest).store,
               (runMindGroups env o false fn
                 (BookProcessingService.processMindMapGroup env o false st g fn).store
                 rest).calls⟩ := rfl
          rw [hrr] at he
          exact he
        obtain ⟨m, hpg, hpcs, ht, hcase⟩ :=
          pmg_success env hr hw o false st g fn pg pcs _ _ _ hpeta
        have hlk1 : lookup
            (BookProcessingService.processMindMapGroup env o false st g fn).store
            (mmKey fn g) = some (.mind m) := by
          rcases hcase with ⟨hst, hl, -⟩ | ⟨hst, -, -⟩
          · rw [hst]; exact hl
          · rw [hst]; exact lookup_setItem_self st (mmKey fn g) (.mind m)
        have hfr := rmg_frame env hr hw o false fn rest _ gs' cs' _ _ heta (mmKey fn g)
          (fun g' hg' => hg_rest g' hg')
        have hlk2 : lookup st₂ (mmKey fn g) = some (.mind m) := by
          rw [hagree g (List.mem_cons_self g rest), ← h2, hfr]
          exact hlk1
        have hhit := pmg_hit env hr o false st₂ g fn m hlk2 (truthy_present _ ht)
        rw [if_pos ht] at hhit
        have hih := ih _ st₂ gs' cs' _ _ hpw_rest heta
          (fun g' hg' => by rw [hagree g' (List.mem_cons_of_mem g hg'), ← h2])
        rw [← hgs, ← hcs]
        simp only [runMindGroups, hhit, hih, List.map_cons, List.map_append, hpg, hpcs,
          stripGroup_mkMind, stripChapters_mkMind]

theorem combined_success (env : Env) (hr : env.readFails = false)
    (hw : env.writeFails = false) (o : Oracle) (ab : Bool) (st : Store) (fn bt : String)
    (chs : List Chapter) (m : MEVal) (st' : Store) (n : Nat) (cb : List CbSummary)
    (h : BookProcessingService.generateCombinedMindMapStage env o ab st fn bt chs =
      ⟨.ok m, st', n, cb⟩) :
    (st' = st ∧ lookup st (bookKey fn .combined_mindmap) = some (.mind m) ∧
      m.nodeData.present = true) ∨
    st' = setItem st (bookKey fn .combined_mindmap) (.mind m) := by
  by_cases hhit : mindHitAt st (bookKey fn .combined_mindmap)
  · obtain ⟨m₀, hs, hp⟩ := hhit
    rw [combined_hit env hr o ab st fn bt chs m₀ hs hp] at h
    obtain ⟨h1, h2, -, -⟩ := StageOut.mk.inj h
    obtain hm := Except.ok.inj h1
    subst hm
    exact Or.inl ⟨h2.symm, hs, hp⟩
  · rw [BookProcessingService.generateCombinedMindMapStage,
      getMindMap_miss env hr st fn .combined_mindmap none
        (by rw [bookKey] at hhit; exact hhit)] at h
    rcases hai : (AIService.generateCombinedMindMap o ab bt chs).1 with e | m₀
    · simp only [hai] at h
      exact absurd (StageOut.mk.inj h).1 (by simp)
    · simp only [hai, CacheService.setCache, CacheService.setItemE, hw] at h
      obtain ⟨h1, h2, -, -⟩ := StageOut.mk.inj h
      obtain hm := Except.ok.inj h1
      subst hm
      exact Or.inr h2.symm

theorem strip_plainGroups (G : List TempChapterGroup) :
    (G.map plainGroup).map stripGroup = G.map plainGroup := by
  rw [List.map_map]
  exact List.map_congr_left (fun g _ => rfl)

theorem strip_plainChapter_one (g : TempChapterGroup) :
    (plainChapters g).map stripChapter = plainChapters g := by
  rw [plainChapters, List.map_map]
  exact List.map_congr_left (fun ch _ => rfl)

theorem strip_plainChapters (G : List TempChapterGroup) :
    ((G.map plainChapters).flatten).map stripChapter = (G.map plainChapters).flatten := by
  induction G with
  | nil => rfl
  | cons g rest ih =>
    simp only [List.map_cons, List.flatten_cons, List.map_append, ih,
      strip_plainChapter_one]

/-- Claim C1 (amended): re-running the pipeline with identical arguments on
the store produced by a successful first run performs zero external
generation calls and leaves the store unchanged, but the returned artifacts
are not byte-identical: they equal the first run's artifacts with every
reasoning field stripped (the reasoning is never cached, so a cache-hit
replay cannot restore it; see the counterexample). Provisos, both needed:
the per-group cache keys are pairwise distinct (colliding group ids make
groups overwrite each other's cache lines), and in combined-mind-map mode
the first run's whole-book map must carry a root node (a rootless payload is
cached but never read back as a hit, so a second run would regenerate). -/
theorem claim1_idempotent_replay (env : Env) (hr : env.readFails = false)
    (hw : env.writeFails = false) (o : Oracle) (st : Store) (fn bt : String)
    (chapters : List ChapterData) (tags : TagMap) (mode : ProcessingMode)
    (bookType : BookType) (out1 : PipeResult) (st1 : Store) (n1 : Nat)
    (hpw : List.Pairwise (fun a b => psgKey fn a ≠ psgKey fn b ∧ mmKey fn a ≠ mmKey fn b)
      (groupChaptersByTag chapters tags))
    (h1 : runPipeline env o false st fn bt chapters tags mode bookType = ⟨.ok out1, st1, n1⟩)
    (hcmb : ∀ m, out1.combinedMindMap = some m → m.nodeData.present = true) :
    runPipeline env o false st1 fn bt chapters tags mode bookType =
      ⟨.ok (stripResult out1), st1, 0⟩ := by
  cases mode with
  | summary =>
    simp only [runPipeline] at h1 ⊢
    rcases hph : runSummaryGroups env o false fn st (groupChaptersByTag chapters tags)
      with ⟨phres, phstore, phcalls⟩
    rw [hph] at h1
    rcases phres with e | ⟨gs, cs⟩
    · simp at h1
    · dsimp only at h1
      rcases hc1 : BookProcessingService.generateConnections env o false phstore fn cs true
        with ⟨c1res, c1store, c1calls, c1cb⟩
      rw [hc1] at h1
      rcases c1res with e | conn
      · simp at h1
      · dsimp only at h1
        rw [BookProcessingService.generateConnections] at hc1
        obtain hcase1 := sstage_success env hr hw phstore fn .connections
          (AIService.analyzeConnections o false cs true) true conn c1store c1calls c1cb hc1
        have hconn_ne : conn ≠ "" := by
          rcases hcase1 with ⟨-, -, hne, -⟩ | ⟨-, -, hai⟩
          · exact hne
          · exact connections_ok_ne o false cs true conn c1calls hai
        have hconn_lk : lookup c1store (bookKey fn .connections) = some (.str conn) := by
          rcases hcase1 with ⟨hst, hl, -, -⟩ | ⟨hst, -, -⟩
          · rw [hst]; exact hl
          · rw [hst]; exact lookup_setItem_self phstore _ _
        have hc1f : ∀ k, k ≠ bookKey fn .connections →
            lookup c1store k = lookup phstore k := by
          intro k hk
          rcases hcase1 with ⟨hst, -, -, -⟩ | ⟨hst, -, -⟩
          · rw [hst]
          · rw [hst, lookup_setItem_ne phstore _ k _ hk]
        cases bookType with
        | fiction =>
          rcases hc2 : BookProcessingService.generateCharacterRelationshipStage env o false
              c1store fn cs with ⟨c2res, c2store, c2calls, c2cb⟩
          rw [hc2] at h1
          rcases c2res with e | rel
          · simp at h1
          · dsimp only at h1
            rw [BookProcessingService.generateCharacterRelationshipStage] at hc2
            obtain hcase2 := sstage_success env hr hw c1store fn .character_relationship
              (AIService.generateCharacterRelationship o false cs) false rel
              c2store c2calls c2cb hc2
            have hrel_ne : rel ≠ "" := by
              rcases hcase2 with ⟨-, -, hne, -⟩ | ⟨-, -, hai⟩
              · exact hne
              · exact charRel_ok_ne o false cs rel c2calls hai
            have hrel_lk : lookup c2store (bookKey fn .character_relationship) =
                some (.str rel) := by
              rcases hcase2 with ⟨hst, hl, -, -⟩ | ⟨hst, -, -⟩
              · rw [hst]; exact hl
              · rw [hst]; exact lookup_setItem_self c1store _ _
            have hc2f : ∀ k, k ≠ bookKey fn .character_relationship →
                lookup c2store k = lookup c1store k := by
              intro k hk
              rcases hcase2 with ⟨hst, -, -, -⟩ | ⟨hst, -, -⟩
              · rw [hst]
              · rw [hst, lookup_setItem_ne c1store _ k _ hk]
            rcases hc3 : BookProcessingService.generateOverallSummaryStage env o false
                c2store fn bt cs true with ⟨c3res, c3store, c3calls, c3cb⟩
            rw [hc3] at h1
            rcases c3res with e | ov
            · simp at h1
            · dsimp only at h1
              rw [BookProcessingService.generateOverallSummaryStage] at hc3
              obtain hcase3 := sstage_success env hr hw c2store fn .overall_summary
                (AIService.generateOverallSummary o false bt cs true) true ov
                c3store c3calls c3cb hc3
              have hov_ne : ov ≠ "" := by
                rcases hcase3 with ⟨-, -, hne, -⟩ | ⟨-, -, hai⟩
                · exact hne
                · exact overall_ok_ne o false bt cs true ov c3calls hai
              have hov_lk : lookup c3store (bookKey fn .overall_summary) =
                  some (.str ov) := by
                rcases hcase3 with ⟨hst, hl, -, -⟩ | ⟨hst, -, -⟩
                · rw [hst]; exact hl
                · rw [hst]; exact lookup_setItem_self c2store _ _
              have hc3f : ∀ k, k ≠ bookKey fn .overall_summary →
                  lookup c3store k = lookup c2store k := by
                intro k hk
                rcases hcase3 with ⟨hst, -, -, -⟩ | ⟨hst, -, -⟩
                · rw [hst]
                · rw [hst, lookup_setItem_ne c2store _ k _ hk]
              obtain ⟨ho1, ho2, -⟩ := PipeOut.mk.inj h1
              obtain hout := Except.ok.inj ho1
              subst ho2
              have hlk_conn1 : lookup c3store (bookKey fn .connections) =
                  some (.str conn) := by
                rw [hc3f _ (bookKey_ne fn _ _ (by decide)),
                  hc2f _ (bookKey_ne fn _ _ (by decide))]
                exact hconn_lk
              have hlk_rel1 : lookup c3store (bookKey fn .character_relationship) =
                  some (.str rel) := by
                rw [hc3f _ (bookKey_ne fn _ _ (by decide))]
                exact hrel_lk
              have hagree : ∀ g ∈ groupChaptersByTag chapters tags,
                  lookup c3store (psgKey fn g) = lookup phstore (psgKey fn g) := by
                intro g hg
                rw [hc3f _ (psgKey_ne_overall fn g), hc2f _ (psgKey_ne_charRel fn g),
                  hc1f _ (psgKey_ne_connections fn g)]
              have hreplay := rsg_replay env hr hw o fn (groupChaptersByTag chapters tags)
                st c3store gs cs phstore phcalls
                (List.Pairwise.imp (fun hab => hab.1) hpw) hph hagree
              rw [hreplay]
              dsimp only
              have hhit1 : BookProcessingService.generateConnections env o false c3store fn
                  (cs.map stripChapter) true = ⟨.ok conn, c3store, 0, [conn]⟩ := by
                rw [BookProcessingService.generateConnections,
                  sstage_hit env hr c3store fn .connections
                    (AIService.analyzeConnections o false (cs.map stripChapter) true) true
                    conn hlk_conn1 hconn_ne]
                rfl
              rw [hhit1]
              dsimp only
              have hhit2 : BookProcessingService.generateCharacterRelationshipStage env o
                  false c3store fn (cs.map stripChapter) = ⟨.ok rel, c3store, 0, []⟩ := by
                rw [BookProcessingService.generateCharacterRelationshipStage,
                  sstage_hit env hr c3store fn .character_relationship
                    (AIService.generateCharacterRelationship o false (cs.map stripChapter))
                    false rel hlk_rel1 hrel_ne]
                rfl
              rw [hhit2]
              dsimp only
              have hhit3 : BookProcessingService.generateOverallSummaryStage env o false
                  c3store fn bt (cs.map stripChapter) true = ⟨.ok ov, c3store, 0, [ov]⟩ := by
                rw [BookProcessingService.generateOverallSummaryStage,
                  sstage_hit env hr c3store fn .overall_summary
                    (AIService.generateOverallSummary o false bt (cs.map stripChapter) true)
                    true ov hov_lk hov_ne]
                rfl
              rw [hhit3]
              dsimp only
              rw [← hout]
              rfl
        | non_fiction =>
          rcases hc3 : BookProcessingService.generateOverallSummaryStage env o false
              c1store fn bt cs true with ⟨c3res, c3store, c3calls, c3cb⟩
          rw [hc3] at h1
          rcases c3res with e | ov
          · simp at h1
          · dsimp only at h1
            rw [BookProcessingService.generateOverallSummaryStage] at hc3
            obtain hcase3 := sstage_success env hr hw c1store fn .overall_summary
              (AIService.generateOverallSummary o false bt cs true) true ov
              c3store c3calls c3cb hc3
            have hov_ne : ov ≠ "" := by
              rcases hcase3 with ⟨-, -, hne, -⟩ | ⟨-, -, hai⟩
              · exact hne
              · exact overall_ok_ne o false bt cs true ov c3calls hai
            have hov_lk : lookup c3store (bookKey fn .overall_summary) =
                some (.str ov) := by
              rcases hcase3 with ⟨hst, hl, -, -⟩ | ⟨hst, -, -⟩
              · rw [hst]; exact hl
              · rw [hst]; exact lookup_setItem_self c1store _ _
            have hc3f : ∀ k, k ≠ bookKey fn .overall_summary →
                lookup c3store k = lookup c1store k := by
              intro k hk
              rcases hcase3 with ⟨hst, -, -, -⟩ | ⟨hst, -, -⟩
              · rw [hst]
              · rw [hst, lookup_setItem_ne c1store _ k _ hk]
            obtain ⟨ho1, ho2, -⟩ := PipeOut.mk.inj h1
            obtain hout := Except.ok.inj ho1
            subst ho2
            have hlk_conn1 : lookup c3store (bookKey fn .connections) =
                some (.str conn) := by
              rw [hc3f _ (bookKey_ne fn _ _ (by decide))]
              exact hconn_lk
            have hagree : ∀ g ∈ groupChaptersByTag chapters tags,
                lookup c3store (psgKey fn g) = lookup phstore (psgKey fn g) := by
              intro g hg
              rw [hc3f _ (psgKey_ne_overall fn g), hc1f _ (psgKey_ne_connections fn g)]
            have hreplay := rsg_replay env hr hw o fn (groupChaptersByTag chapters tags)
              st c3store gs cs phstore phcalls
              (List.Pairwise.imp (fun hab => hab.1) hpw) hph hagree
            rw [hreplay]
            dsimp only
            have hhit1 : BookProcessingService.generateConnections env o false c3store fn
                (cs.map stripChapter) true = ⟨.ok conn, c3store, 0, [conn]⟩ := by
              rw [BookProcessingService.generateConnections,
                sstage_hit env hr c3store fn .connections
                  (AIService.analyzeConnections o false (cs.map stripChapter) true) true
                  conn hlk_conn1 hconn_ne]
              rfl
            rw [hhit1]
            dsimp only
            have hhit3 : BookProcessingService.generateOverallSummaryStage env o false
                c3store fn bt (cs.map stripChapter) true = ⟨.ok ov, c3store, 0, [ov]⟩ := by
              rw [BookProcessingService.generateOverallSummaryStage,
                sstage_hit env hr c3store fn .overall_summary
                  (AIService.generateOverallSummary o false bt (cs.map stripChapter) true)
                  true ov hov_lk hov_ne]
              rfl
            rw [hhit3]
            dsimp only
            rw [← hout]
            rfl
  | mindmap =>
    simp only [runPipeline] at h1 ⊢
    rcases hph : runMindGroups env o false fn st (groupChaptersByTag chapters tags)
      with ⟨phres, phstore, phcalls⟩
    rw [hph] at h1
    rcases phres with e | ⟨gs, cs⟩
    · simp at h1
    · dsimp only at h1
      rcases hmg : BookProcessingService.mergeMindMaps env phstore fn bt cs
        with ⟨mgres, mgstore, mgcalls, mgcb⟩
      rw [hmg] at h1
      rcases mgres with e | mm
      · simp at h1
      · dsimp only at h1
        obtain ⟨ho1, ho2, -⟩ := PipeOut.mk.inj h1
        obtain hout := Except.ok.inj ho1
        subst ho2
        obtain hcasem := merge_success env hr hw phstore fn bt cs mm mgstore mgcalls mgcb hmg
        have hmm_lk : lookup mgstore (bookKey fn .merged_mindmap) = some (.mind mm) := by
          rcases hcasem with ⟨hst, hl, -, -⟩ | ⟨hst, -, -, -⟩
          · rw [hst]; exact hl
          · rw [hst]; exact lookup_setItem_self phstore _ _
        have hmm_p : mm.nodeData.present = true := by
          rcases hcasem with ⟨-, -, hp, -⟩ | ⟨-, hmmv, -, -⟩
          · exact hp
          · rw [hmmv]; rfl
        have hagree : ∀ g ∈ groupChaptersByTag chapters tags,
            lookup mgstore (mmKey fn g) = lookup phstore (mmKey fn g) := by
          intro g hg
          rcases hcasem with ⟨hst, -, -, -⟩ | ⟨hst, -, -, -⟩
          · rw [hst]
          · rw [hst, lookup_setItem_ne phstore _ _ _ (mmKey_ne_merged fn g)]
        have hreplay := rmg_replay env hr hw o fn (groupChaptersByTag chapters tags)
          st mgstore gs cs phstore phcalls
          (List.Pairwise.imp (fun hab => hab.2) hpw) hph hagree
        rw [hreplay]
        dsimp only
        rw [merge_hit env hr mgstore fn bt (cs.map stripChapter) mm hmm_lk hmm_p]
        dsimp only
        rw [← hout]
        rfl
  | combined_mindmap =>
    simp only [runPipeline] at h1 ⊢
    rcases hcg : BookProcessingService.generateCombinedMindMapStage env o false st fn bt
        ((groupChaptersByTag chapters tags).map plainChapters).flatten
      with ⟨cgres, cgstore, cgcalls, cgcb⟩
    rw [hcg] at h1
    rcases cgres with e | m
    · simp at h1
    · dsimp only at h1
      obtain ⟨ho1, ho2, -⟩ := PipeOut.mk.inj h1
      obtain hout := Except.ok.inj ho1
      subst ho2
      have hp : m.nodeData.present = true := hcmb m (by rw [← hout])
      obtain hcasec := combined_success env hr hw o false st fn bt
        ((groupChaptersByTag chapters tags).map plainChapters).flatten m cgstore
        cgcalls cgcb hcg
      have hlk : lookup cgstore (bookKey fn .combined_mindmap) = some (.mind m) := by
        rcases hcasec with ⟨hst, hl, -⟩ | hst
        · rw [hst]; exact hl
        · rw [hst]; exact lookup_setItem_self st _ _
      rw [combined_hit env hr o false cgstore fn bt
        ((groupChaptersByTag chapters tags).map plainChapters).flatten m hlk hp]
      dsimp only
      rw [← hout]
      simp only [stripResult, strip_plainGroups, strip_plainChapters]

/-- The store left by the one-chapter summary-mode first run. -/
def st1W : Store :=
  [("book_b_chapter_T1_summary", .str "S"), ("book_b_connections", .str "C"),
   ("book_b_overall_summary", .str "O")]

/-- The artifacts returned by the one-chapter summary-mode first run. -/
def out1W : PipeResult :=
  ⟨[BookProcessingService.mkSummaryGroup gW "S" "R"],
   BookProcessingService.mkSummaryChapters gW "S" "R", some "C", none, some "O", none⟩

/-- Counterexample to C1: the second run performs zero calls and reuses the
first run's store, but its artifacts are not byte-identical — the group
reasoning produced by the first run (`some "R"`) is absent (`none`) in the
replay, because only the summary text was cached. -/
theorem claim1_counterexample :
    ((runPipeline noFault oW false st1W "b" "BT" [⟨"c1", "T1", "X1"⟩] [] .summary
        .non_fiction).calls = 0) ∧
    (runPipeline noFault oW false [] "b" "BT" [⟨"c1", "T1", "X1"⟩] [] .summary
        .non_fiction).store = st1W ∧
    ((runPipeline noFault oW false [] "b" "BT" [⟨"c1", "T1", "X1"⟩] [] .summary
        .non_fiction).res.toOption.map (fun r => r.groups.map (·.reasoning)) =
      some [some "R"]) ∧
    ((runPipeline noFault oW false st1W "b" "BT" [⟨"c1", "T1", "X1"⟩] [] .summary
        .non_fiction).res.toOption.map (fun r => r.groups.map (·.reasoning)) =
      some [none]) ∧
    some [some "R"] ≠ (some [none] : Option (List (Option String))) :=
  ⟨rfl, rfl, rfl, rfl, by decide⟩

/-- Witness for the amended C1 at a concrete one-chapter run. -/
theorem claim1_witness :
    (noFault.readFails = false) ∧ (noFault.writeFails = false) ∧
    List.Pairwise (fun a b => psgKey "b" a ≠ psgKey "b" b ∧ mmKey "b" a ≠ mmKey "b" b)
      (groupChaptersByTag [⟨"c1", "T1", "X1"⟩] []) ∧
    (runPipeline noFault oW false [] "b" "BT" [⟨"c1", "T1", "X1"⟩] [] .summary
        .non_fiction = ⟨.ok out1W, st1W, 3⟩) ∧
    (∀ m, out1W.combinedMindMap = some m → m.nodeData.present = true) ∧
    runPipeline noFault oW false st1W "b" "BT" [⟨"c1", "T1", "X1"⟩] [] .summary
        .non_fiction = ⟨.ok (stripResult out1W), st1W, 0⟩ :=
  ⟨rfl, rfl, by decide, rfl, fun m hm => absurd hm (by simp [out1W]),
   claim1_idempotent_replay noFault rfl rfl oW [] "b" "BT" [⟨"c1", "T1", "X1"⟩] []
     .summary .non_fiction out1W st1W 3 (by decide) rfl
     (fun m hm => absurd hm (by simp [out1W]))⟩

end Ebook
